import Mathlib

/-!
# lib-go-databox: the store-json facades (`api-ts.go`, `api-ks.go`)

A shallow embedding of the time-series and key-value facades of the databox
client library, together with the parts of the Go language and standard
library they rely on (byte strings, `int64` arithmetic, `float64`
conversions, `time.Time`, `strconv.FormatFloat`).

The store transport (`makeStoreRequest`, `makeStoreRequestJson`,
`makeStoreRequestPOST`) lives outside the two source files; it is taken as a
parameter: a reply function together with the list of requests made so far.
-/

set_option autoImplicit false

/-! ## Go strings -/

/-- A Go `string`: an immutable sequence of bytes. -/
abbrev GoString := List UInt8

/-- The bytes of a Go string literal (Go source text is UTF-8). -/
def lit (s : String) : GoString := s.toUTF8.data.toList

/-- Go `s[i]`: the byte at index `i`; `none` stands for the run-time panic
"index out of range". -/
def GoString.index (s : GoString) (i : Int) : Option UInt8 :=
  if 0 ≤ i ∧ i < s.length then s.get? i.toNat else none

/-- Go `s[lo:hi]`: the bytes from `lo` up to `hi` (exclusive); `none` stands
for the run-time panic "slice bounds out of range". -/
def GoString.slice (s : GoString) (lo hi : Int) : Option GoString :=
  if 0 ≤ lo ∧ lo ≤ hi ∧ hi ≤ s.length then
    some ((s.drop lo.toNat).take (hi.toNat - lo.toNat))
  else none

/-! ## Go errors and call outcomes -/

/-- A Go `error` value, represented by the text its `Error()` method returns. -/
structure GoError where
  /-- The text of the error. -/
  Error : GoString
  deriving DecidableEq

/-- Go `errors.New(text)`. -/
def errors.New (text : GoString) : GoError := ⟨text⟩

/-- How a call of a Go function ends: it returns its results, or the
goroutine panics with a run-time error. -/
inductive Outcome (α : Type) where
  | returns (v : α) : Outcome α
  | panics : Outcome α
  deriving DecidableEq

/-! ## The store transport -/

/-- One call of the store transport. The three constructors are the three
transport functions the facades call. -/
inductive Request where
  /-- A call `makeStoreRequest(url, method)`. -/
  | plain (url method : GoString) : Request
  /-- A call `makeStoreRequestJson(url, method, params)`. -/
  | json (url method params : GoString) : Request
  /-- A call `makeStoreRequestPOST(url, body)`. -/
  | post (url body : GoString) : Request
  deriving DecidableEq

/-- The store seen from the facade: the requests made so far, oldest first,
and the `(string, error)` pair the transport returns for a request given
that history. -/
structure Store where
  /-- Requests made so far. -/
  log : List Request
  /-- The transport's `(data, err)` for the next request. -/
  reply : List Request → Request → GoString × Option GoError

/-- Perform a request: the transport's reply and the store with the request
recorded. -/
def Store.perform (w : Store) (r : Request) : (GoString × Option GoError) × Store :=
  (w.reply w.log r, { w with log := w.log ++ [r] })

/-- The transport function `makeStoreRequest(url, method)`. -/
def makeStoreRequest (w : Store) (url method : GoString) :
    (GoString × Option GoError) × Store :=
  w.perform (.plain url method)

/-- The transport function `makeStoreRequestJson(url, method, params)`. -/
def makeStoreRequestJson (w : Store) (url method params : GoString) :
    (GoString × Option GoError) × Store :=
  w.perform (.json url method params)

/-- The transport function `makeStoreRequestPOST(url, body)`. -/
def makeStoreRequestPOST (w : Store) (url body : GoString) :
    (GoString × Option GoError) × Store :=
  w.perform (.post url body)

/-! ## `int64` and `float64` -/

/-- Reduction of an integer to the `int64` range (two's-complement wrap). -/
def wrap64 (x : ℤ) : ℤ := (x + 2 ^ 63) % 2 ^ 64 - 2 ^ 63

/-- A finite `float64`, represented by its exact value. Infinities and NaN
are not represented: the operations below agree with IEEE-754 binary64
whenever the IEEE result is finite. -/
abbrev F64 := ℚ

/-- Nearest integer to `q`, ties to the even neighbour. -/
def roundHalfEven (q : ℚ) : ℤ :=
  let f := ⌊q⌋
  if q - f < 1 / 2 then f
  else if 1 / 2 < q - f then f + 1
  else if f % 2 = 0 then f else f + 1

/-- Rounding of an exact value to the nearest `float64` (53-bit significand,
least exponent `-1074`), ties to even. -/
def F64.round (q : ℚ) : F64 :=
  if q = 0 then 0
  else
    let e : ℤ := max (Int.log 2 |q| - 52) (-1074)
    (roundHalfEven (q / 2 ^ e) : ℚ) * 2 ^ e

/-- Go `float64(x)` for `x` an `int64`. -/
def F64.ofInt64 (x : ℤ) : F64 := F64.round x

/-- Go `int64(x)` for `x` a `float64`: the fraction is discarded (truncation
towards zero). When the truncated value does not fit an `int64` the Go
specification leaves the result to the implementation; the value taken here
is the one amd64 produces, `-2^63`. -/
def F64.toInt64 (x : F64) : ℤ :=
  let t : ℤ := if 0 ≤ x then ⌊x⌋ else ⌈x⌉
  if -2 ^ 63 ≤ t ∧ t < 2 ^ 63 then t else -2 ^ 63

/-- Go `a - b` on `float64`. -/
def F64.sub (a b : F64) : F64 := F64.round (a - b)

/-- Go `a * b` on `float64`. -/
def F64.mul (a b : F64) : F64 := F64.round (a * b)

/-! ## `time.Time` -/

namespace time

/-- A Go `time.Time` as an instant: whole seconds since the Unix epoch
(an `int64`) and nanoseconds within the second. -/
structure Time where
  /-- Seconds since the Unix epoch. -/
  sec : ℤ
  /-- Nanoseconds within the second. -/
  nsec : ℕ
  deriving DecidableEq

/-- The values a `time.Time` can take. -/
def Time.Valid (t : Time) : Prop :=
  -2 ^ 63 ≤ t.sec ∧ t.sec < 2 ^ 63 ∧ t.nsec < 1000000000

instance (t : Time) : Decidable t.Valid := by
  unfold Time.Valid; infer_instance

/-- Go `t.Unix()`. -/
def Time.Unix (t : Time) : ℤ := t.sec

/-- Go `t.Nanosecond()`. -/
def Time.Nanosecond (t : Time) : ℤ := t.nsec

/-- Go `!t.After(u)`: `t` is not later than `u`. -/
def Time.le (t u : Time) : Prop :=
  t.sec < u.sec ∨ (t.sec = u.sec ∧ t.nsec ≤ u.nsec)

instance (t u : Time) : Decidable (t.le u) := by
  unfold Time.le; infer_instance

/-- Go `time.Unix(sec, nsec)`: the time `sec` seconds and `nsec` nanoseconds
after the epoch; `nsec` outside `[0, 999999999]` is carried into the
seconds. -/
def Unix (sec nsec : ℤ) : Time :=
  if nsec < 0 ∨ nsec ≥ 1000000000 then
    let n := nsec.tdiv 1000000000
    let sec1 := wrap64 (sec + n)
    let nsec1 := wrap64 (nsec - wrap64 (n * 1000000000))
    if nsec1 < 0 then
      ⟨wrap64 (sec1 - 1), (wrap64 (nsec1 + 1000000000)).toNat⟩
    else ⟨sec1, nsec1.toNat⟩
  else ⟨sec, nsec.toNat⟩

end time

/-! ## `strconv.FormatFloat(f, 'f', -1, 64)` -/

namespace strconv

/-- The decimals with `k` significant digits next below and next above
`a > 0`, kept when parsing them gives back `a`; when both do, the one nearer
to `a` (ties to the even last digit). -/
def shortestAt (a : ℚ) (k : ℕ) : Option ℚ :=
  let u : ℚ := 10 ^ (Int.log 10 a + 1 - (k : ℤ))
  let down : ℚ := ⌊a / u⌋ * u
  let up : ℚ := down + u
  if F64.round down = a then
    if F64.round up = a then
      if a - down < up - a then some down
      else if up - a < a - down then some up
      else if ⌊a / u⌋ % 2 = 0 then some down else some up
    else some down
  else if F64.round up = a then some up
  else none

/-- The shortest decimal that parses back to `a > 0`, searched from `k`
significant digits upwards, with its number of digits. Seventeen digits
always suffice for a `float64`; should the search run out, `a` itself is
returned. -/
def shortest (a : ℚ) : ℕ → ℕ → ℚ × ℕ
  | 0, k => (a, k)
  | fuel + 1, k =>
    match shortestAt a k with
    | some c => (c, k)
    | none => shortest a fuel (k + 1)

/-- Positional notation of `c ≥ 0` with at most `j` fractional digits:
the integer part, then the point and the fractional digits, without
trailing zeros and without the point when no fractional digit is left. -/
def fmtF (c : ℚ) (j : ℕ) : String :=
  let ip : ℕ := ⌊c⌋.toNat
  let fr : ℕ := ⌊(c - ip) * 10 ^ j⌋.toNat
  let ds := ((Nat.toDigits 10 fr).leftpad j '0').rdropWhile (· = '0')
  if ds = [] then toString ip else toString ip ++ "." ++ String.mk ds

/-- Go `strconv.FormatFloat(f, 'f', -1, 64)`: format `-ddd.dddd` without
exponent, with the smallest number of digits such that parsing the text
returns `f` exactly. -/
def FormatFloat (f : F64) : GoString :=
  if f = 0 then lit "0"
  else
    let a := |f|
    let r := shortest a 17 1
    let j := (-(Int.log 10 a + 1 - (r.2 : ℤ))).toNat
    lit ((if f < 0 then "-" else "") ++ fmtF r.1 j)

end strconv

/-! ## The time-series facade (`api-ts.go`) -/

/-- Concrete implementation for store-json. -/
structure jsonStore_TimeSeries_0_2_0 where
  /-- The endpoint of the data source. -/
  href : GoString
  deriving DecidableEq

namespace jsonStore_TimeSeries_0_2_0

/-- Json Store time is ms since unix epoch, int:
`float64(t.Unix()*1000 + int64(t.Nanosecond()/1000000))`. -/
def Time2Timestamp (_s : jsonStore_TimeSeries_0_2_0) (t : time.Time) : F64 :=
  F64.ofInt64 (wrap64 (wrap64 (t.Unix * 1000) + wrap64 ((t.Nanosecond).tdiv 1000000)))

/-- The source's `Timestamp2Time`:
`seconds := int64(ts); time.Unix(seconds, int64((ts-float64(seconds))*1000000000))`. -/
def Timestamp2Time (_s : jsonStore_TimeSeries_0_2_0) (ts : F64) : time.Time :=
  let seconds := F64.toInt64 ts
  time.Unix seconds (F64.toInt64 (F64.mul (F64.sub ts (F64.ofInt64 seconds)) 1000000000))

/-- The source's `ReadLatest`: GET `href/ts/latest`; `"[]"` means no value;
otherwise the enclosing `[` `]` are removed. -/
def ReadLatest (s : jsonStore_TimeSeries_0_2_0) (w : Store) :
    Outcome (GoString × Option GoError) × Store :=
  let r := makeStoreRequest w (s.href ++ lit "/ts/latest") (lit "GET")
  let data := r.1.1
  match r.1.2 with
  | some err => (.returns ([], some err), r.2)
  | none =>
    if data = lit "[]" then (.returns ([], none), r.2)
    else
      let l : ℤ := data.length
      match data.index 0 with
      | none => (.panics, r.2)
      | some c0 =>
        if c0 = '['.toUInt8 then
          match data.index (l - 1) with
          | none => (.panics, r.2)
          | some cl =>
            if cl = ']'.toUInt8 then
              match data.slice 1 (l - 1) with
              | none => (.panics, r.2)
              | some v => (.returns (v, none), r.2)
            else
              (.returns ([], some (errors.New
                (lit "Unexpected return value from latest: " ++ data))), r.2)
        else
          (.returns ([], some (errors.New
            (lit "Unexpected return value from latest: " ++ data))), r.2)

/-- The source's `ReadSince`. -/
def ReadSince (s : jsonStore_TimeSeries_0_2_0) (startTime : time.Time) (w : Store) :
    Outcome (GoString × Option GoError) × Store :=
  let startTimestamp := s.Time2Timestamp startTime
  let params := lit "\x7b\"startTimestamp\": " ++ strconv.FormatFloat startTimestamp ++ lit "\x7d"
  let r := makeStoreRequestJson w (s.href ++ lit "/ts/since") (lit "GET") params
  match r.1.2 with
  | some err => (.returns ([], some err), r.2)
  | none => (.returns (r.1.1, none), r.2)

/-- The source's `ReadRange`. -/
def ReadRange (s : jsonStore_TimeSeries_0_2_0) (startTime endTime : time.Time) (w : Store) :
    Outcome (GoString × Option GoError) × Store :=
  let startTimestamp := s.Time2Timestamp startTime
  let endTimestamp := s.Time2Timestamp endTime
  let params := lit "\x7b\"startTimestamp\": " ++ strconv.FormatFloat startTimestamp ++
    lit ",\"endTimestamp\": " ++ strconv.FormatFloat endTimestamp ++ lit "\x7d"
  let r := makeStoreRequestJson w (s.href ++ lit "/ts/range") (lit "GET") params
  match r.1.2 with
  | some err => (.returns ([], some err), r.2)
  | none => (.returns (r.1.1, none), r.2)

/-- The source's `WriteRawValue`. -/
def WriteRawValue (s : jsonStore_TimeSeries_0_2_0) (data : GoString) (w : Store) :
    Outcome (Option GoError) × Store :=
  let value := lit "\x7b\"data\": " ++ data ++ lit "\x7d"
  let r := makeStoreRequestPOST w (s.href ++ lit "/ts") value
  match r.1.2 with
  | some err => (.returns (some err), r.2)
  | none => (.returns none, r.2)

/-- The source's `WriteRawValueAt`. -/
def WriteRawValueAt (s : jsonStore_TimeSeries_0_2_0) (data : GoString) (t : time.Time)
    (w : Store) : Outcome (Option GoError) × Store :=
  let value := lit "\x7b\"data\": " ++ data ++ lit ",\"timestamp\":" ++
    strconv.FormatFloat (s.Time2Timestamp t) ++ lit "\x7d"
  let r := makeStoreRequestPOST w (s.href ++ lit "/ts") value
  match r.1.2 with
  | some err => (.returns (some err), r.2)
  | none => (.returns none, r.2)

end jsonStore_TimeSeries_0_2_0

/-! ## The key-value facade (`api-ks.go`) -/

/-- Concrete implementation for store-json. -/
structure jsonStore_KeyValue_0_2_0 where
  /-- The endpoint of the data source. -/
  href : GoString
  deriving DecidableEq

namespace jsonStore_KeyValue_0_2_0

/-- The source's `Write`. -/
def Write (s : jsonStore_KeyValue_0_2_0) (data : GoString) (w : Store) :
    Outcome (Option GoError) × Store :=
  let r := makeStoreRequestPOST w (s.href ++ lit "/kv") data
  match r.1.2 with
  | some err => (.returns (some err), r.2)
  | none => (.returns none, r.2)

/-- The source's `Read`. -/
def Read (s : jsonStore_KeyValue_0_2_0) (w : Store) :
    Outcome (GoString × Option GoError) × Store :=
  let r := makeStoreRequest w (s.href ++ lit "/kv") (lit "GET")
  match r.1.2 with
  | some err => (.returns ([], some err), r.2)
  | none => (.returns (r.1.1, none), r.2)

end jsonStore_KeyValue_0_2_0

/-! ## Factories from a store endpoint and a store type -/

/-- The only supported store type. -/
def STORE_JSON : GoString := lit "store-json"

/-- The source's `MakeStoreTimeSeries_0_2_0`; a `nil` facade is `none`. -/
def MakeStoreTimeSeries_0_2_0 (storeHref datasourceId storeType : GoString) :
    Option jsonStore_TimeSeries_0_2_0 × Option GoError :=
  if storeType = STORE_JSON then
    (some ⟨storeHref ++ lit "/" ++ datasourceId⟩, none)
  else
    (none, some (errors.New
      (lit "(MakeStoreTimeSeries_0_2_0) Unsupported store type: " ++ storeType)))

/-- The source's `MakeStoreKeyValue_0_2_0`; a `nil` facade is `none`. -/
def MakeStoreKeyValue_0_2_0 (storeHref datasourceId storeType : GoString) :
    Option jsonStore_KeyValue_0_2_0 × Option GoError :=
  if storeType = STORE_JSON then
    (some ⟨storeHref ++ lit "/" ++ datasourceId⟩, none)
  else
    (none, some (errors.New
      (lit "(MakeStoreKeyValue_0_2_0) Unsupported store type: " ++ storeType)))

/-! ## Factories from the data source metadata -/

/-- The catalogue-metadata code the factories call, which lives outside the
two source files and is taken as a parameter: the `hypercat` type with its
`Href` field, the decoding `json.Unmarshal([]byte(dsMetadata), &meta)` of a
metadata text into a zero `hypercat` value (the decoded value and the error
returned), and `getDsStoreType`. -/
structure Catalogue where
  /-- The type `hypercat`. -/
  hypercat : Type
  /-- The decoding of a metadata text: the value left in `meta` and the error. -/
  Unmarshal : GoString → hypercat × Option GoError
  /-- The field `meta.Href`. -/
  Href : hypercat → GoString
  /-- The function `getDsStoreType(meta)`. -/
  getDsStoreType : hypercat → GoString

/-- The source's `MakeSourceTimeSeries_0_2_0`; a `nil` facade is `none`. -/
def MakeSourceTimeSeries_0_2_0 (c : Catalogue) (dsMetadata : GoString) :
    Option jsonStore_TimeSeries_0_2_0 × Option GoError :=
  let r := c.Unmarshal dsMetadata
  match r.2 with
  | some err => (none, some err)
  | none =>
    let meta := r.1
    let href := c.Href meta
    let storeType := c.getDsStoreType meta
    if storeType = STORE_JSON then
      (some ⟨href⟩, none)
    else if storeType = lit "" then
      (none, some (errors.New
        (lit "(MakeStoreTimeSeries_0_2_0) Unspecified store type for " ++ href)))
    else
      (none, some (errors.New
        (lit "(MakeStoreTimeSeries_0_2_0) Unsupported store type: " ++ storeType)))

/-- The source's `MakeSourcKeyValue_0_2_0`; a `nil` facade is `none`. -/
def MakeSourcKeyValue_0_2_0 (c : Catalogue) (dsMetadata : GoString) :
    Option jsonStore_KeyValue_0_2_0 × Option GoError :=
  let r := c.Unmarshal dsMetadata
  match r.2 with
  | some err => (none, some err)
  | none =>
    let meta := r.1
    let href := c.Href meta
    let storeType := c.getDsStoreType meta
    if storeType = STORE_JSON then
      (some ⟨href⟩, none)
    else if storeType = lit "" then
      (none, some (errors.New
        (lit "(MakeStoreKeyValue_0_2_0) Unspecified store type for " ++ href)))
    else
      (none, some (errors.New
        (lit "(MakeStoreKeyValue_0_2_0) Unsupported store type: " ++ storeType)))

/-! ## Requests on the wire -/

/-- The URL a transport call is made to. -/
def Request.url : Request → GoString
  | .plain url _ => url
  | .json url _ _ => url
  | .post url _ => url

/-- The method of a transport call: the `method` argument of
`makeStoreRequest` and `makeStoreRequestJson`; `makeStoreRequestPOST` is the
transport's POST function. -/
def Request.method : Request → GoString
  | .plain _ method => method
  | .json _ method _ => method
  | .post _ _ => lit "POST"

/-! ## Instants and `float64` values -/

/-- The instant of a time in nanoseconds since the Unix epoch. -/
def nanos (t : time.Time) : ℤ := t.sec * 1000000000 + (t.nsec : ℤ)

/-- The exact values that are `float64` values: rounding leaves them as
they are. -/
def F64.IsFloat64 (q : ℚ) : Prop := F64.round q = q

instance (q : ℚ) : Decidable (F64.IsFloat64 q) := by
  unfold F64.IsFloat64; infer_instance

/-! ## Millisecond counts -/

/-- The millisecond count of a time, as the specification words it: the
seconds times 1000 plus the nanoseconds divided by 1,000,000, rounded down. -/
def millis (t : time.Time) : ℤ := t.sec * 1000 + ((t.nsec / 1000000 : ℕ) : ℤ)

/-! ## Example values -/

/-- A store with no request made yet whose transport answers every request
with `(data, nil)`. -/
def Store.answering (data : GoString) : Store :=
  ⟨[], fun _ _ => (data, none)⟩

/-- A facade used in examples. -/
def exampleFacade : jsonStore_TimeSeries_0_2_0 := ⟨lit "http://store/ds"⟩

/-- A store with no request made yet whose transport fails every request
with the error `e`, returning the text `data` alongside. -/
def Store.failing (data : GoString) (e : GoError) : Store :=
  ⟨[], fun _ _ => (data, some e)⟩

/-- A key-value facade used in examples. -/
def exampleKeyValue : jsonStore_KeyValue_0_2_0 := ⟨lit "http://store/ds"⟩

/-- A catalogue in which every metadata text decodes, without error, to the
endpoint `href` and the store type `storeType`. -/
def Catalogue.fixed (href storeType : GoString) : Catalogue :=
  ⟨GoString × GoString, fun _ => ((href, storeType), none), fun m => m.1, fun m => m.2⟩

/-! ## Byte strings: indexing and slicing -/

theorem lit_brackets : lit "[]" = ['['.toUInt8, ']'.toUInt8] := by decide

theorem lit_open : lit "[" = ['['.toUInt8] := by decide

theorem lit_close : lit "]" = [']'.toUInt8] := by decide

theorem GoString.index_zero_cons (c : UInt8) (t : GoString) :
    GoString.index (c :: t) 0 = some c := by
  simp [GoString.index]

theorem GoString.index_zero_nil : GoString.index [] 0 = none := by
  simp [GoString.index]

theorem GoString.index_last (t : GoString) (c : UInt8) :
    GoString.index (t ++ [c]) (((t ++ [c]).length : ℤ) - 1) = some c := by
  have h : (((t ++ [c]).length : ℤ) - 1) = (t.length : ℤ) := by
    simp
  rw [h]
  simp [GoString.index]

theorem GoString.slice_strip (a b : UInt8) (s : GoString) :
    GoString.slice (a :: (s ++ [b])) 1 (((a :: (s ++ [b])).length : ℤ) - 1) = some s := by
  have h : (((a :: (s ++ [b])).length : ℤ) - 1) = ((s.length + 1 : ℕ) : ℤ) := by
    simp
  rw [h]
  have h1 : (1 : ℤ) ≤ ((s.length + 1 : ℕ) : ℤ) := by omega
  have h2 : ((s.length + 1 : ℕ) : ℤ) ≤ ((a :: (s ++ [b])).length : ℤ) := by
    simp
  simp only [GoString.slice]
  rw [if_pos ⟨by norm_num, h1, h2⟩]
  simp

/-! ## `ReadLatest` -/

/-- What `ReadLatest` does once the transport has answered `(data, nil)` with
`data` beginning with `[`, ending with `]` and holding `s` in between. -/
theorem ReadLatest_bracketed (f : jsonStore_TimeSeries_0_2_0) (w : Store) (s : GoString)
    (hs : s ≠ [])
    (h : w.reply w.log (.plain (f.href ++ lit "/ts/latest") (lit "GET")) =
      (lit "[" ++ s ++ lit "]", none)) :
    (f.ReadLatest w).1 = .returns (s, none) := by
  have hne : ('['.toUInt8 :: (s ++ [']'.toUInt8])) ≠ ['['.toUInt8, ']'.toUInt8] := by
    intro hc
    have := congrArg List.length hc
    simp at this
    exact hs this
  have hdata : lit "[" ++ s ++ lit "]" = '['.toUInt8 :: (s ++ [']'.toUInt8]) := by
    rw [lit_open, lit_close]; simp
  rw [hdata] at h
  have hlast : GoString.index ('['.toUInt8 :: (s ++ [']'.toUInt8]))
      ((('['.toUInt8 :: (s ++ [']'.toUInt8])).length : ℤ) - 1) = some ']'.toUInt8 := by
    have := GoString.index_last ('['.toUInt8 :: s) ']'.toUInt8
    simpa using this
  simp only [jsonStore_TimeSeries_0_2_0.ReadLatest, makeStoreRequest, Store.perform, h,
    lit_brackets, if_neg hne, GoString.index_zero_cons, hlast, GoString.slice_strip, if_true]

/-- What `ReadLatest` does once the transport has answered `(data, nil)` with
a non-empty `data` that does not both begin with `[` and end with `]`. -/
theorem ReadLatest_malformed (f : jsonStore_TimeSeries_0_2_0) (w : Store) (r : GoString)
    (hr : r ≠ [])
    (h : w.reply w.log (.plain (f.href ++ lit "/ts/latest") (lit "GET")) = (r, none))
    (hb : ¬ (r.head? = some '['.toUInt8 ∧ r.getLast? = some ']'.toUInt8)) :
    (f.ReadLatest w).1 = .returns ([], some (errors.New
      (lit "Unexpected return value from latest: " ++ r))) := by
  obtain ⟨c, t, rfl⟩ := List.exists_cons_of_ne_nil hr
  have hne : (c :: t) ≠ ['['.toUInt8, ']'.toUInt8] := by
    intro hc
    apply hb
    rw [hc]
    decide
  have hlast : GoString.index (c :: t) (((c :: t).length : ℤ) - 1) =
      some ((c :: t).getLast (List.cons_ne_nil c t)) := by
    have hsplit := List.dropLast_append_getLast (List.cons_ne_nil c t)
    have := GoString.index_last ((c :: t).dropLast) ((c :: t).getLast (List.cons_ne_nil c t))
    rw [hsplit] at this
    exact this
  simp only [jsonStore_TimeSeries_0_2_0.ReadLatest, makeStoreRequest, Store.perform, h,
    lit_brackets, if_neg hne, GoString.index_zero_cons, hlast]
  by_cases hc : c = '['.toUInt8
  · have hl : (c :: t).getLast (List.cons_ne_nil c t) ≠ ']'.toUInt8 := by
      intro hl
      apply hb
      refine ⟨by simp [hc], ?_⟩
      rw [List.getLast?_eq_getLast _ (List.cons_ne_nil c t), hl]
    simp only [if_pos hc, if_neg hl]
  · simp only [if_neg hc]

/-- What `ReadLatest` does once the transport has answered `("[]", nil)`. -/
theorem ReadLatest_no_value (f : jsonStore_TimeSeries_0_2_0) (w : Store)
    (h : w.reply w.log (.plain (f.href ++ lit "/ts/latest") (lit "GET")) =
      (lit "[]", none)) :
    (f.ReadLatest w).1 = .returns ([], none) := by
  simp [jsonStore_TimeSeries_0_2_0.ReadLatest, makeStoreRequest, Store.perform, h]

/-- A non-empty text that begins with `[` and ends with `]` is `[`, some
text, `]`. -/
theorem bracketed_split (r : GoString) (hr : r ≠ [])
    (hb : r.head? = some '['.toUInt8 ∧ r.getLast? = some ']'.toUInt8) :
    ∃ m : GoString, r = lit "[" ++ m ++ lit "]" := by
  obtain ⟨c, t, rfl⟩ := List.exists_cons_of_ne_nil hr
  have hc : c = '['.toUInt8 := by simpa using hb.1
  subst hc
  have ht : t ≠ [] := by
    rintro rfl
    exact absurd hb.2 (by decide)
  have hsplit := List.dropLast_append_getLast ht
  have hl : t.getLast ht = ']'.toUInt8 := by
    have h2 := hb.2
    rw [List.getLast?_eq_getLast _ (List.cons_ne_nil _ t), List.getLast_cons ht] at h2
    exact Option.some.inj h2
  refine ⟨t.dropLast, ?_⟩
  rw [lit_open, lit_close, ← hl]
  simp [hsplit]

/-- With a non-empty answer that begins with `[` and ends with `]`,
`ReadLatest` returns a value and no error. -/
theorem ReadLatest_wellformed (f : jsonStore_TimeSeries_0_2_0) (w : Store) (r : GoString)
    (hr : r ≠ [])
    (h : w.reply w.log (.plain (f.href ++ lit "/ts/latest") (lit "GET")) = (r, none))
    (hb : r.head? = some '['.toUInt8 ∧ r.getLast? = some ']'.toUInt8) :
    ∃ v, (f.ReadLatest w).1 = .returns (v, none) := by
  obtain ⟨m, rfl⟩ := bracketed_split r hr hb
  by_cases hm : m = []
  · subst hm
    exact ⟨[], ReadLatest_no_value f w (by rw [h]; rfl)⟩
  · exact ⟨m, ReadLatest_bracketed f w m hm h⟩

/-! ## Claims about `ReadLatest` and `WriteRawValue` -/

/-- C4, evaluated at the failing input: when the transport answers the
latest request with the empty text and no error, `ReadLatest` does not
return; indexing the first byte of the empty text panics. -/
theorem C4_ReadLatest_empty_response_panics :
    (exampleFacade.ReadLatest (Store.answering [])).1 = Outcome.panics := by
  simp [jsonStore_TimeSeries_0_2_0.ReadLatest, makeStoreRequest, Store.perform,
    Store.answering, lit_brackets, GoString.index_zero_nil]

/-- C5: when the transport answers the latest request with `[` followed by a
non-empty text `s` followed by `]` and no error, `ReadLatest` returns exactly
`s` and no error. -/
theorem C5_ReadLatest_strips_brackets (f : jsonStore_TimeSeries_0_2_0) (w : Store)
    (s : GoString) (hs : s ≠ [])
    (h : w.reply w.log (.plain (f.href ++ lit "/ts/latest") (lit "GET")) =
      (lit "[" ++ s ++ lit "]", none)) :
    (f.ReadLatest w).1 = .returns (s, none) :=
  ReadLatest_bracketed f w s hs h

theorem C5_ReadLatest_strips_brackets_witness :
    lit "\x7b\"timestamp\":1000,\"data\":5\x7d" ≠ [] ∧
    (exampleFacade.ReadLatest (Store.answering (lit "[\x7b\"timestamp\":1000,\"data\":5\x7d]"))).1 =
      .returns (lit "\x7b\"timestamp\":1000,\"data\":5\x7d", none) :=
  ⟨by decide, C5_ReadLatest_strips_brackets exampleFacade
    (Store.answering (lit "[\x7b\"timestamp\":1000,\"data\":5\x7d]"))
    (lit "\x7b\"timestamp\":1000,\"data\":5\x7d") (by decide) (by decide)⟩

/-- C6: when the transport answers the latest request with exactly `[]` and
no error, `ReadLatest` returns the empty string and no error. -/
theorem C6_ReadLatest_empty_array (f : jsonStore_TimeSeries_0_2_0) (w : Store)
    (h : w.reply w.log (.plain (f.href ++ lit "/ts/latest") (lit "GET")) =
      (lit "[]", none)) :
    (f.ReadLatest w).1 = .returns ([], none) := by
  exact ReadLatest_no_value f w h

theorem C6_ReadLatest_empty_array_witness :
    (Store.answering (lit "[]")).reply (Store.answering (lit "[]")).log
      (.plain (exampleFacade.href ++ lit "/ts/latest") (lit "GET")) = (lit "[]", none) ∧
    (exampleFacade.ReadLatest (Store.answering (lit "[]"))).1 = .returns ([], none) :=
  ⟨rfl, C6_ReadLatest_empty_array exampleFacade (Store.answering (lit "[]")) rfl⟩

/-- C7: when the transport answers the latest request with a non-empty text
`r` and no error, `ReadLatest` returns an error exactly when `r` does not
both begin with `[` and end with `]`; whenever it returns an error the value
returned with it is the empty string and the error text contains `r`. -/
theorem C7_ReadLatest_decode_error (f : jsonStore_TimeSeries_0_2_0) (w : Store)
    (r : GoString) (hr : r ≠ [])
    (h : w.reply w.log (.plain (f.href ++ lit "/ts/latest") (lit "GET")) = (r, none)) :
    ((∃ v e, (f.ReadLatest w).1 = .returns (v, some e)) ↔
      ¬ (r.head? = some '['.toUInt8 ∧ r.getLast? = some ']'.toUInt8)) ∧
    (∀ v e, (f.ReadLatest w).1 = .returns (v, some e) → v = [] ∧ r <:+: e.Error) := by
  by_cases hb : r.head? = some '['.toUInt8 ∧ r.getLast? = some ']'.toUInt8
  · obtain ⟨v, hv⟩ := ReadLatest_wellformed f w r hr h hb
    refine ⟨⟨fun ⟨v1, e, he⟩ => ?_, fun hn => absurd hb hn⟩, fun v1 e he => ?_⟩
    · rw [hv] at he; simp at he
    · rw [hv] at he; simp at he
  · have hv := ReadLatest_malformed f w r hr h hb
    refine ⟨⟨fun _ => hb, fun _ => ⟨_, _, hv⟩⟩, fun v e he => ?_⟩
    rw [hv] at he
    simp only [Outcome.returns.injEq, Prod.mk.injEq, Option.some.injEq] at he
    obtain ⟨rfl, rfl⟩ := he
    exact ⟨rfl, ⟨lit "Unexpected return value from latest: ", [], by simp [errors.New]⟩⟩

theorem C7_ReadLatest_decode_error_witness :
    lit "\x7b\x7d" ≠ [] ∧
    ((∃ v e, (exampleFacade.ReadLatest (Store.answering (lit "\x7b\x7d"))).1 = .returns (v, some e)) ↔
      ¬ ((lit "\x7b\x7d").head? = some '['.toUInt8 ∧ (lit "\x7b\x7d").getLast? = some ']'.toUInt8)) ∧
    (∀ v e, (exampleFacade.ReadLatest (Store.answering (lit "\x7b\x7d"))).1 = .returns (v, some e) →
      v = [] ∧ lit "\x7b\x7d" <:+: e.Error) :=
  ⟨by decide, C7_ReadLatest_decode_error exampleFacade (Store.answering (lit "\x7b\x7d"))
    (lit "\x7b\x7d") (by decide) rfl⟩

/-- C9: `WriteRawValue(d)` makes one POST to `href/ts` whose body is exactly
`{"data": ` followed by `d` unchanged followed by `}`; for `d = 5` the body
is `{"data": 5}`. -/
theorem C9_WriteRawValue_body (f : jsonStore_TimeSeries_0_2_0) (d : GoString) (w : Store) :
    (f.WriteRawValue d w).2.log =
      w.log ++ [.post (f.href ++ lit "/ts") (lit "\x7b\"data\": " ++ d ++ lit "\x7d")] ∧
    (exampleFacade.WriteRawValue (lit "5") (Store.answering [])).2.log =
      [.post (lit "http://store/ds/ts") (lit "\x7b\"data\": 5\x7d")] := by
  constructor
  · simp only [jsonStore_TimeSeries_0_2_0.WriteRawValue, makeStoreRequestPOST, Store.perform]
    split <;> rfl
  · decide

/-! ## Rounding to `float64` -/

theorem roundHalfEven_intCast (m : ℤ) : roundHalfEven (m : ℚ) = m := by
  simp [roundHalfEven]

theorem floor_le_roundHalfEven (x : ℚ) : ⌊x⌋ ≤ roundHalfEven x := by
  unfold roundHalfEven
  simp only []
  split_ifs <;> omega

theorem roundHalfEven_le_floor_add_one (x : ℚ) : roundHalfEven x ≤ ⌊x⌋ + 1 := by
  unfold roundHalfEven
  simp only []
  split_ifs <;> omega

theorem roundHalfEven_mono {x y : ℚ} (h : x ≤ y) : roundHalfEven x ≤ roundHalfEven y := by
  have hf : ⌊x⌋ ≤ ⌊y⌋ := Int.floor_mono h
  rcases lt_or_eq_of_le hf with hlt | heq
  · calc roundHalfEven x ≤ ⌊x⌋ + 1 := roundHalfEven_le_floor_add_one x
      _ ≤ ⌊y⌋ := hlt
      _ ≤ roundHalfEven y := floor_le_roundHalfEven y
  · unfold roundHalfEven
    simp only []
    rw [heq]
    split_ifs <;> first | omega | (exfalso; linarith)

theorem F64.round_zero : F64.round 0 = 0 := by
  simp [F64.round]

/-- The exponent `F64.round` uses for a non-zero whole number. -/
theorem F64.exponent_intCast (n : ℤ) :
    max (Int.log 2 |(n : ℚ)| - 52) (-1074) = (Nat.log 2 n.natAbs : ℤ) - 52 := by
  have habs : |(n : ℚ)| = ((n.natAbs : ℕ) : ℚ) := by
    rw [Nat.cast_natAbs, Int.cast_abs]
  rw [habs, Int.log_natCast]
  omega

/-- Whole numbers below `2^53` in magnitude are `float64` values. -/
theorem F64.round_intCast (n : ℤ) (h : |n| < 2 ^ 53) : F64.round (n : ℚ) = n := by
  by_cases hn : n = 0
  · simp [F64.round, hn]
  have hq : (n : ℚ) ≠ 0 := by exact_mod_cast hn
  have hnat : n.natAbs < 2 ^ 53 := by
    have := Int.abs_eq_natAbs n
    omega
  have hlog : Nat.log 2 n.natAbs < 53 :=
    Nat.log_lt_of_lt_pow (by simpa using hn) hnat
  obtain ⟨d, hd⟩ : ∃ d : ℕ, (Nat.log 2 n.natAbs : ℤ) - 52 = -(d : ℤ) :=
    ⟨52 - Nat.log 2 n.natAbs, by omega⟩
  unfold F64.round
  rw [if_neg hq]
  simp only []
  rw [F64.exponent_intCast n, hd, zpow_neg, zpow_natCast]
  have h2 : ((2 : ℚ) ^ d) ≠ 0 := by positivity
  have hs : (n : ℚ) / ((2 : ℚ) ^ d)⁻¹ = ((n * 2 ^ d : ℤ) : ℚ) := by
    push_cast
    field_simp
  rw [hs, roundHalfEven_intCast]
  push_cast
  field_simp

theorem roundHalfEven_neg (q : ℚ) : roundHalfEven (-q) = -roundHalfEven q := by
  by_cases hq : ((⌊q⌋ : ℤ) : ℚ) = q
  · rw [← hq, ← Int.cast_neg, roundHalfEven_intCast, roundHalfEven_intCast]
  · have h1 : ((⌊q⌋ : ℤ) : ℚ) < q := lt_of_le_of_ne (Int.floor_le q) hq
    have h2 : q < ((⌊q⌋ : ℤ) : ℚ) + 1 := Int.lt_floor_add_one q
    have hf : ⌊-q⌋ = -⌊q⌋ - 1 := by
      rw [Int.floor_eq_iff]
      push_cast
      constructor <;> linarith
    unfold roundHalfEven
    simp only []
    rw [hf]
    push_cast
    split_ifs <;> first | omega | (exfalso; linarith)

theorem F64.round_neg (q : ℚ) : F64.round (-q) = -F64.round q := by
  unfold F64.round
  by_cases hq : q = 0
  · simp [hq]
  · have hq2 : -q ≠ 0 := neg_ne_zero.mpr hq
    rw [if_neg hq, if_neg hq2]
    simp only [abs_neg, neg_div, roundHalfEven_neg]
    push_cast
    ring

theorem F64.round_nonneg {q : ℚ} (h : 0 ≤ q) : 0 ≤ F64.round q := by
  unfold F64.round
  split_ifs with hq
  · exact le_refl 0
  · simp only []
    have hpos : (0 : ℚ) < 2 ^ (max (Int.log 2 |q| - 52) (-1074)) := by positivity
    have h0 : roundHalfEven 0 ≤ roundHalfEven (q / 2 ^ (max (Int.log 2 |q| - 52) (-1074))) :=
      roundHalfEven_mono (div_nonneg h hpos.le)
    have h00 : roundHalfEven 0 = 0 := by
      have := roundHalfEven_intCast 0
      simpa using this
    rw [h00] at h0
    have : (0 : ℚ) ≤ (roundHalfEven (q / 2 ^ (max (Int.log 2 |q| - 52) (-1074))) : ℚ) := by
      exact_mod_cast h0
    exact mul_nonneg this hpos.le

theorem F64.round_nonpos {q : ℚ} (h : q ≤ 0) : F64.round q ≤ 0 := by
  have := F64.round_nonneg (neg_nonneg.mpr h)
  rw [F64.round_neg] at this
  linarith

/-- The rounding of a value of at least one, with the exponent made explicit. -/
theorem F64.round_of_one_le {q : ℚ} (h : 1 ≤ q) :
    F64.round q = (roundHalfEven (q / 2 ^ (Int.log 2 q - 52)) : ℚ) * 2 ^ (Int.log 2 q - 52) := by
  have hq : q ≠ 0 := by linarith
  have habs : |q| = q := abs_of_nonneg (by linarith)
  have hlog : 0 ≤ Int.log 2 q := by
    rw [Int.log_of_one_le_right 2 h]
    exact Int.natCast_nonneg _
  unfold F64.round
  rw [if_neg hq, habs]
  simp only []
  rw [max_eq_left (by omega)]

/-- Rounding stays within the binade of its argument. -/
theorem F64.round_binade {q : ℚ} (h : 1 ≤ q) :
    (2 : ℚ) ^ (Int.log 2 q) ≤ F64.round q ∧ F64.round q ≤ (2 : ℚ) ^ (Int.log 2 q + 1) := by
  have hq : 0 < q := by linarith
  have hlo : ((2 : ℕ) : ℚ) ^ (Int.log 2 q) ≤ q := Int.zpow_log_le_self (by norm_num) hq
  have hhi : q < ((2 : ℕ) : ℚ) ^ (Int.log 2 q + 1) := Int.lt_zpow_succ_log_self (by norm_num) q
  simp only [Nat.cast_ofNat] at hlo hhi
  have hpos : (0 : ℚ) < 2 ^ (Int.log 2 q - 52) := by positivity
  have e1 : (2 : ℚ) ^ (Int.log 2 q) = 2 ^ (52 : ℕ) * 2 ^ (Int.log 2 q - 52) := by
    rw [← zpow_natCast, ← zpow_add₀ (by norm_num : (2 : ℚ) ≠ 0)]
    congr 1
    omega
  have e2 : (2 : ℚ) ^ (Int.log 2 q + 1) = 2 ^ (53 : ℕ) * 2 ^ (Int.log 2 q - 52) := by
    rw [← zpow_natCast, ← zpow_add₀ (by norm_num : (2 : ℚ) ≠ 0)]
    congr 1
    omega
  have s1 : (((2 ^ 52 : ℤ)) : ℚ) ≤ q / 2 ^ (Int.log 2 q - 52) := by
    rw [le_div_iff₀ hpos]
    have hc : (((2 ^ 52 : ℤ)) : ℚ) = 2 ^ (52 : ℕ) := by norm_num
    rw [hc, ← e1]
    exact hlo
  have s2 : q / 2 ^ (Int.log 2 q - 52) ≤ (((2 ^ 53 : ℤ)) : ℚ) := by
    rw [div_le_iff₀ hpos]
    have hc : (((2 ^ 53 : ℤ)) : ℚ) = 2 ^ (53 : ℕ) := by norm_num
    rw [hc, ← e2]
    exact hhi.le
  have r1 := roundHalfEven_mono s1
  have r2 := roundHalfEven_mono s2
  rw [roundHalfEven_intCast] at r1 r2
  have r1q : ((2 : ℚ) ^ (52 : ℕ)) ≤ (roundHalfEven (q / 2 ^ (Int.log 2 q - 52)) : ℚ) := by
    exact_mod_cast r1
  have r2q : (roundHalfEven (q / 2 ^ (Int.log 2 q - 52)) : ℚ) ≤ ((2 : ℚ) ^ (53 : ℕ)) := by
    exact_mod_cast r2
  rw [F64.round_of_one_le h, e1, e2]
  exact ⟨mul_le_mul_of_nonneg_right r1q hpos.le, mul_le_mul_of_nonneg_right r2q hpos.le⟩

theorem F64.round_mono_of_one_le {x y : ℚ} (hx : 1 ≤ x) (h : x ≤ y) :
    F64.round x ≤ F64.round y := by
  have hy : 1 ≤ y := le_trans hx h
  have hlog : Int.log 2 x ≤ Int.log 2 y := Int.log_mono_right (by linarith) h
  rcases lt_or_eq_of_le hlog with hlt | heq
  · calc F64.round x ≤ (2 : ℚ) ^ (Int.log 2 x + 1) := (F64.round_binade hx).2
      _ ≤ (2 : ℚ) ^ (Int.log 2 y) := zpow_le_zpow_right₀ (by norm_num) (by omega)
      _ ≤ F64.round y := (F64.round_binade hy).1
  · rw [F64.round_of_one_le hx, F64.round_of_one_le hy, heq]
    have hpos : (0 : ℚ) < 2 ^ (Int.log 2 y - 52) := by positivity
    have hm : roundHalfEven (x / 2 ^ (Int.log 2 y - 52)) ≤
        roundHalfEven (y / 2 ^ (Int.log 2 y - 52)) :=
      roundHalfEven_mono (div_le_div_of_nonneg_right h hpos.le)
    have hmq : (roundHalfEven (x / 2 ^ (Int.log 2 y - 52)) : ℚ) ≤
        (roundHalfEven (y / 2 ^ (Int.log 2 y - 52)) : ℚ) := by exact_mod_cast hm
    exact mul_le_mul_of_nonneg_right hmq hpos.le

/-- The conversion `float64(x)` of integers is monotone. -/
theorem F64.ofInt64_mono {x y : ℤ} (h : x ≤ y) : F64.ofInt64 x ≤ F64.ofInt64 y := by
  unfold F64.ofInt64
  have hq : (x : ℚ) ≤ (y : ℚ) := by exact_mod_cast h
  rcases le_or_lt x 0 with hx | hx
  · rcases le_or_lt 0 y with hy | hy
    · exact le_trans (F64.round_nonpos (by exact_mod_cast hx))
        (F64.round_nonneg (by exact_mod_cast hy))
    · have h1 : (1 : ℚ) ≤ -(y : ℚ) := by
        have : (1 : ℤ) ≤ -y := by omega
        exact_mod_cast this
      have := F64.round_mono_of_one_le h1 (neg_le_neg hq)
      rw [F64.round_neg, F64.round_neg] at this
      linarith
  · have h1 : (1 : ℚ) ≤ (x : ℚ) := by
      have : (1 : ℤ) ≤ x := by omega
      exact_mod_cast this
    exact F64.round_mono_of_one_le h1 hq

/-! ## Time conversion -/

theorem wrap64_of_range {x : ℤ} (h1 : -2 ^ 63 ≤ x) (h2 : x < 2 ^ 63) : wrap64 x = x := by
  unfold wrap64
  norm_num at h1 h2 ⊢
  omega

theorem wrap64_add_wrap64 (a b : ℤ) : wrap64 (wrap64 a + wrap64 b) = wrap64 (a + b) := by
  unfold wrap64
  norm_num
  omega

/-- In general `Time2Timestamp` is the `float64` of the millisecond count
reduced to the `int64` range. -/
theorem Time2Timestamp_eq (f : jsonStore_TimeSeries_0_2_0) (t : time.Time) :
    f.Time2Timestamp t = F64.ofInt64 (wrap64 (millis t)) := by
  unfold jsonStore_TimeSeries_0_2_0.Time2Timestamp millis time.Time.Unix time.Time.Nanosecond
  rw [wrap64_add_wrap64]
  rfl

theorem millis_le_of_le {t u : time.Time} (hu : u.nsec < 1000000000)
    (ht : t.nsec < 1000000000) (h : t.le u) : millis t ≤ millis u := by
  unfold millis
  rcases h with h | ⟨h1, h2⟩
  · have a1 : t.nsec / 1000000 < 1000 := by omega
    have a2 : (0 : ℤ) ≤ ((u.nsec / 1000000 : ℕ) : ℤ) := Int.natCast_nonneg _
    have a3 : ((t.nsec / 1000000 : ℕ) : ℤ) < 1000 := by exact_mod_cast a1
    omega
  · have a1 : t.nsec / 1000000 ≤ u.nsec / 1000000 := Nat.div_le_div_right h2
    have a3 : ((t.nsec / 1000000 : ℕ) : ℤ) ≤ ((u.nsec / 1000000 : ℕ) : ℤ) := by
      exact_mod_cast a1
    omega

theorem F64.toInt64_intCast {n : ℤ} (h1 : -2 ^ 63 ≤ n) (h2 : n < 2 ^ 63) :
    F64.toInt64 (n : ℚ) = n := by
  unfold F64.toInt64
  simp only [Int.floor_intCast, Int.ceil_intCast, ite_self]
  rw [if_pos ⟨h1, h2⟩]

/-- On a whole number below `2^53` in magnitude `Timestamp2Time` gives the
time that many seconds after the epoch. -/
theorem Timestamp2Time_intCast (f : jsonStore_TimeSeries_0_2_0) (n : ℤ) (h : |n| < 2 ^ 53) :
    f.Timestamp2Time (n : ℚ) = ⟨n, 0⟩ := by
  have hb := abs_lt.mp h
  have h1 : -2 ^ 63 ≤ n := by
    have := hb.1
    norm_num at this ⊢
    omega
  have h2 : n < 2 ^ 63 := by
    have := hb.2
    norm_num at this ⊢
    omega
  unfold jsonStore_TimeSeries_0_2_0.Timestamp2Time
  simp only []
  rw [F64.toInt64_intCast h1 h2]
  unfold F64.ofInt64 F64.sub F64.mul
  rw [F64.round_intCast n h, sub_self, F64.round_zero, zero_mul, F64.round_zero]
  have h0 : F64.toInt64 (0 : ℚ) = 0 := by
    have := @F64.toInt64_intCast 0 (by norm_num) (by norm_num)
    simpa using this
  rw [h0]
  simp [time.Unix]

/-- Converting a time to a timestamp and back gives the time that many
seconds (not milliseconds) after the epoch, with no nanoseconds. -/
theorem Timestamp2Time_Time2Timestamp (f : jsonStore_TimeSeries_0_2_0) (t : time.Time)
    (h : |millis t| < 2 ^ 53) :
    f.Timestamp2Time (f.Time2Timestamp t) = ⟨millis t, 0⟩ := by
  have hb := abs_lt.mp h
  have hw : wrap64 (millis t) = millis t := by
    apply wrap64_of_range
    · have := hb.1
      norm_num at this ⊢
      omega
    · have := hb.2
      norm_num at this ⊢
      omega
  rw [Time2Timestamp_eq, hw]
  unfold F64.ofInt64
  rw [F64.round_intCast _ h]
  exact Timestamp2Time_intCast f (millis t) h

/-! ## Claims about the time conversion -/

/-- C1, evaluated at the failing input: for the time one second after the
epoch, `Timestamp2Time(Time2Timestamp(t))` is the time 1000 seconds after
the epoch, which is not `t` truncated to milliseconds (`t` itself). -/
theorem C1_roundtrip_one_second :
    exampleFacade.Timestamp2Time (exampleFacade.Time2Timestamp ⟨1, 0⟩) = ⟨1000, 0⟩ ∧
    exampleFacade.Timestamp2Time (exampleFacade.Time2Timestamp ⟨1, 0⟩) ≠ ⟨1, 0⟩ := by
  have h : exampleFacade.Timestamp2Time (exampleFacade.Time2Timestamp ⟨1, 0⟩) = ⟨1000, 0⟩ :=
    Timestamp2Time_Time2Timestamp exampleFacade ⟨1, 0⟩ (by decide)
  refine ⟨h, ?_⟩
  rw [h]
  decide

/-- C2: for a time whose Unix seconds are at most `10^10` in magnitude and
whose nanoseconds are below `10^9`, `Time2Timestamp` is exactly the seconds
times 1000 plus the nanoseconds divided by 1,000,000 rounded down; neither
the multiplication nor the addition wraps in `int64`, and the conversion of
the sum to `float64` is exact. -/
theorem C2_Time2Timestamp_exact (f : jsonStore_TimeSeries_0_2_0) (t : time.Time)
    (hs : |t.sec| ≤ 10 ^ 10) (hn : t.nsec < 1000000000) :
    f.Time2Timestamp t = ((t.sec * 1000 + ((t.nsec / 1000000 : ℕ) : ℤ) : ℤ) : ℚ) ∧
    wrap64 (t.Unix * 1000) = t.sec * 1000 ∧
    wrap64 (wrap64 (t.Unix * 1000) + wrap64 (t.Nanosecond.tdiv 1000000)) =
      t.sec * 1000 + ((t.nsec / 1000000 : ℕ) : ℤ) ∧
    F64.ofInt64 (t.sec * 1000 + ((t.nsec / 1000000 : ℕ) : ℤ)) =
      ((t.sec * 1000 + ((t.nsec / 1000000 : ℕ) : ℤ) : ℤ) : ℚ) := by
  have hb := abs_le.mp hs
  have a1 : t.nsec / 1000000 < 1000 := by omega
  have a2 : (0 : ℤ) ≤ ((t.nsec / 1000000 : ℕ) : ℤ) := Int.natCast_nonneg _
  have a3 : ((t.nsec / 1000000 : ℕ) : ℤ) < 1000 := by exact_mod_cast a1
  have hlo := hb.1
  have hhi := hb.2
  norm_num at hlo hhi
  have hm : |t.sec * 1000 + ((t.nsec / 1000000 : ℕ) : ℤ)| < 2 ^ 53 := by
    rw [abs_lt]
    norm_num
    constructor <;> omega
  have hw1 : wrap64 (t.sec * 1000) = t.sec * 1000 := by
    apply wrap64_of_range <;> norm_num <;> omega
  have hw2 : wrap64 (t.sec * 1000 + ((t.nsec / 1000000 : ℕ) : ℤ)) =
      t.sec * 1000 + ((t.nsec / 1000000 : ℕ) : ℤ) := by
    apply wrap64_of_range <;> norm_num <;> omega
  have hexact : F64.ofInt64 (t.sec * 1000 + ((t.nsec / 1000000 : ℕ) : ℤ)) =
      ((t.sec * 1000 + ((t.nsec / 1000000 : ℕ) : ℤ) : ℤ) : ℚ) := by
    unfold F64.ofInt64
    exact F64.round_intCast _ hm
  refine ⟨?_, hw1, ?_, hexact⟩
  · rw [Time2Timestamp_eq]
    unfold millis
    rw [hw2, hexact]
  · rw [wrap64_add_wrap64]
    exact hw2

theorem C2_Time2Timestamp_exact_witness :
    |(⟨-1, 999999999⟩ : time.Time).sec| ≤ 10 ^ 10 ∧
    (⟨-1, 999999999⟩ : time.Time).nsec < 1000000000 ∧
    exampleFacade.Time2Timestamp ⟨-1, 999999999⟩ =
      (((-1 : ℤ) * 1000 + ((999999999 / 1000000 : ℕ) : ℤ) : ℤ) : ℚ) :=
  ⟨by decide, by decide,
    (C2_Time2Timestamp_exact exampleFacade ⟨-1, 999999999⟩ (by decide) (by decide)).1⟩

/-- C3 as stated fails: of two times in order, 9223372036854775 and
9223372036854776 seconds after the epoch, the later one has the smaller
timestamp, because the multiplication by 1000 wraps in `int64`. -/
theorem C3_monotone_counterexample :
    (⟨9223372036854775, 0⟩ : time.Time).Valid ∧
    (⟨9223372036854776, 0⟩ : time.Time).Valid ∧
    (⟨9223372036854775, 0⟩ : time.Time).le ⟨9223372036854776, 0⟩ ∧
    exampleFacade.Time2Timestamp ⟨9223372036854776, 0⟩ <
      exampleFacade.Time2Timestamp ⟨9223372036854775, 0⟩ := by
  refine ⟨by decide, by decide, by decide, ?_⟩
  rw [Time2Timestamp_eq, Time2Timestamp_eq]
  have m1 : wrap64 (millis ⟨9223372036854776, 0⟩) = -9223372036854775616 := by decide
  have m2 : wrap64 (millis ⟨9223372036854775, 0⟩) = 9223372036854775000 := by decide
  rw [m1, m2]
  unfold F64.ofInt64
  have hneg : F64.round ((-9223372036854775616 : ℤ) : ℚ) ≤ 0 :=
    F64.round_nonpos (by norm_num)
  have hpos : (0 : ℚ) < F64.round ((9223372036854775000 : ℤ) : ℚ) := by
    have hb := (@F64.round_binade ((9223372036854775000 : ℤ) : ℚ) (by norm_num)).1
    exact lt_of_lt_of_le (by positivity) hb
  exact lt_of_le_of_lt hneg hpos

/-- C3 as amended: for times in order whose millisecond counts fit an
`int64`, `Time2Timestamp` of the earlier is at most that of the later. -/
theorem C3_Time2Timestamp_monotone (f : jsonStore_TimeSeries_0_2_0) (t u : time.Time)
    (ht : t.nsec < 1000000000) (hu : u.nsec < 1000000000)
    (ht1 : -2 ^ 63 ≤ millis t) (ht2 : millis t < 2 ^ 63)
    (hu1 : -2 ^ 63 ≤ millis u) (hu2 : millis u < 2 ^ 63)
    (h : t.le u) :
    f.Time2Timestamp t ≤ f.Time2Timestamp u := by
  rw [Time2Timestamp_eq, Time2Timestamp_eq, wrap64_of_range ht1 ht2, wrap64_of_range hu1 hu2]
  exact F64.ofInt64_mono (millis_le_of_le hu ht h)

theorem C3_Time2Timestamp_monotone_witness :
    -2 ^ 63 ≤ millis ⟨9223372036854774, 999999999⟩ ∧
    millis ⟨9223372036854775, 0⟩ < 2 ^ 63 ∧
    (⟨9223372036854774, 999999999⟩ : time.Time).le ⟨9223372036854775, 0⟩ ∧
    exampleFacade.Time2Timestamp ⟨9223372036854774, 999999999⟩ ≤
      exampleFacade.Time2Timestamp ⟨9223372036854775, 0⟩ :=
  ⟨by decide, by decide, by decide,
    C3_Time2Timestamp_monotone exampleFacade ⟨9223372036854774, 999999999⟩
    ⟨9223372036854775, 0⟩ (by decide) (by decide) (by decide) (by decide) (by decide)
    (by decide) (by decide)⟩

/-! ## Formatting whole numbers -/

theorem F64.round_natCast (n : ℕ) (h : n < 2 ^ 53) : F64.round (n : ℚ) = n := by
  have := F64.round_intCast (n : ℤ) (by rw [abs_of_nonneg (Int.natCast_nonneg n)]; exact_mod_cast h)
  simpa using this

/-- With `k` digits, between one and the number of digits of `m`, the search
step succeeds exactly when the digits of `m` after the first `k` are all
zero, and then yields `m` itself. -/
theorem strconv.shortestAt_natCast (m k : ℕ) (hm : 0 < m) (hb : m < 10 ^ 15)
    (hk1 : 1 ≤ k) (hk : k ≤ Nat.log 10 m + 1) :
    strconv.shortestAt (m : ℚ) k =
      if 10 ^ (Nat.log 10 m + 1 - k) ∣ m then some (m : ℚ) else none := by
  obtain ⟨p, hp⟩ : ∃ p : ℕ, p = Nat.log 10 m + 1 - k := ⟨_, rfl⟩
  have hpz : ((Nat.log 10 m : ℤ) + 1 - (k : ℤ)) = (p : ℤ) := by omega
  have hple : 10 ^ p ≤ m :=
    le_trans (Nat.pow_le_pow_right (by norm_num) (by omega)) (Nat.pow_log_le_self 10 hm.ne')
  have hppos : 0 < 10 ^ p := by positivity
  have hu : (10 : ℚ) ^ (Int.log 10 ((m : ℕ) : ℚ) + 1 - (k : ℤ)) = ((10 ^ p : ℕ) : ℚ) := by
    rw [Int.log_natCast, hpz, zpow_natCast]
    push_cast
    rfl
  have hfl : ⌊(m : ℚ) / ((10 ^ p : ℕ) : ℚ)⌋ = ((m / 10 ^ p : ℕ) : ℤ) :=
    Rat.floor_natCast_div_natCast m (10 ^ p)
  have hD : m / 10 ^ p * 10 ^ p ≤ m := Nat.div_mul_le_self m (10 ^ p)
  have hU : m < m / 10 ^ p * 10 ^ p + 10 ^ p := Nat.lt_div_mul_add hppos
  have hdown : (((m / 10 ^ p : ℕ) : ℤ) : ℚ) * ((10 ^ p : ℕ) : ℚ) =
      ((m / 10 ^ p * 10 ^ p : ℕ) : ℚ) := by
    rw [Int.cast_natCast, Nat.cast_mul]
  have hup : ((m / 10 ^ p * 10 ^ p : ℕ) : ℚ) + ((10 ^ p : ℕ) : ℚ) =
      ((m / 10 ^ p * 10 ^ p + 10 ^ p : ℕ) : ℚ) :=
    (Nat.cast_add _ _).symm
  have h53 : (10 : ℕ) ^ 15 * 2 < 2 ^ 53 := by norm_num
  have rD : F64.round ((m / 10 ^ p * 10 ^ p : ℕ) : ℚ) = ((m / 10 ^ p * 10 ^ p : ℕ) : ℚ) :=
    F64.round_natCast _ (by omega)
  have rU : F64.round ((m / 10 ^ p * 10 ^ p + 10 ^ p : ℕ) : ℚ) =
      ((m / 10 ^ p * 10 ^ p + 10 ^ p : ℕ) : ℚ) :=
    F64.round_natCast _ (by omega)
  have hne : ¬ (((m / 10 ^ p * 10 ^ p + 10 ^ p : ℕ) : ℚ) = (m : ℚ)) := by
    intro hc
    have : m / 10 ^ p * 10 ^ p + 10 ^ p = m := by exact_mod_cast hc
    omega
  unfold strconv.shortestAt
  simp only []
  rw [hu, hfl, hdown, hup, rD, rU, if_neg hne, ← hp]
  by_cases hd : 10 ^ p ∣ m
  · have : m / 10 ^ p * 10 ^ p = m := Nat.div_mul_cancel hd
    rw [if_pos hd, this, if_pos rfl]
  · have : ¬ (((m / 10 ^ p * 10 ^ p : ℕ) : ℚ) = (m : ℚ)) := by
      intro hc
      have h2 : m / 10 ^ p * 10 ^ p = m := by exact_mod_cast hc
      exact hd (Dvd.intro_left _ h2)
    rw [if_neg hd, if_neg this, if_neg hne]

/-- The search started with at most as many digits as `m` has ends on `m`
itself, before passing the number of digits of `m`. -/
theorem strconv.shortest_natCast (m : ℕ) (hm : 0 < m) (hb : m < 10 ^ 15) :
    ∀ fuel k : ℕ, 1 ≤ k → k ≤ Nat.log 10 m + 1 → Nat.log 10 m + 1 - k < fuel →
      ∃ k1 : ℕ, k1 ≤ Nat.log 10 m + 1 ∧ strconv.shortest (m : ℚ) fuel k = ((m : ℚ), k1) := by
  intro fuel
  induction fuel with
  | zero => intro k _ _ h; omega
  | succ fuel ih =>
    intro k hk1 hk hf
    simp only [strconv.shortest]
    rw [strconv.shortestAt_natCast m k hm hb hk1 hk]
    by_cases hd : 10 ^ (Nat.log 10 m + 1 - k) ∣ m
    · rw [if_pos hd]
      exact ⟨k, hk, rfl⟩
    · rw [if_neg hd]
      have hlt : k < Nat.log 10 m + 1 := by
        rcases Nat.lt_or_eq_of_le hk with h | h
        · exact h
        · exfalso
          apply hd
          rw [h, Nat.sub_self, pow_zero]
          exact one_dvd m
      exact ih (k + 1) (by omega) (by omega) (by omega)

theorem strconv.fmtF_natCast (m : ℕ) : strconv.fmtF (m : ℚ) 0 = toString m := by
  unfold strconv.fmtF
  simp only [Int.floor_natCast, Int.toNat_natCast, sub_self, zero_mul, Int.floor_zero,
    Int.toNat_zero]
  rfl

/-- A positive whole number below `10^15` is formatted as its decimal digits. -/
theorem strconv.FormatFloat_natCast (m : ℕ) (hm : 0 < m) (hb : m < 10 ^ 15) :
    strconv.FormatFloat (m : ℚ) = lit (toString m) := by
  have hlog : Nat.log 10 m < 15 := Nat.log_lt_of_lt_pow hm.ne' hb
  obtain ⟨k1, hk1, hs⟩ := strconv.shortest_natCast m hm hb 17 1 (le_refl 1) (by omega) (by omega)
  have hq : ((m : ℕ) : ℚ) ≠ 0 := by exact_mod_cast hm.ne'
  have hnn : ¬ ((m : ℕ) : ℚ) < 0 := not_lt.mpr (Nat.cast_nonneg m)
  have habs : |((m : ℕ) : ℚ)| = m := abs_of_nonneg (Nat.cast_nonneg m)
  unfold strconv.FormatFloat
  rw [if_neg hq]
  simp only []
  rw [habs, hs, Int.log_natCast, if_neg hnn]
  have hj : (-((Nat.log 10 m : ℤ) + 1 - (k1 : ℤ))).toNat = 0 := by omega
  simp only [hj, strconv.fmtF_natCast]
  rfl

/-- A negative whole number above `-10^15` is formatted as a minus sign and
the decimal digits of its magnitude. -/
theorem strconv.FormatFloat_neg_natCast (m : ℕ) (hm : 0 < m) (hb : m < 10 ^ 15) :
    strconv.FormatFloat (-(m : ℚ)) = lit ("-" ++ toString m) := by
  have hlog : Nat.log 10 m < 15 := Nat.log_lt_of_lt_pow hm.ne' hb
  obtain ⟨k1, hk1, hs⟩ := strconv.shortest_natCast m hm hb 17 1 (le_refl 1) (by omega) (by omega)
  have hpos : (0 : ℚ) < (m : ℚ) := by exact_mod_cast hm
  have hq : -((m : ℕ) : ℚ) ≠ 0 := by linarith
  have hneg : -((m : ℕ) : ℚ) < 0 := by linarith
  have habs : |(-((m : ℕ) : ℚ))| = m := by rw [abs_neg]; exact abs_of_nonneg hpos.le
  unfold strconv.FormatFloat
  rw [if_neg hq]
  simp only []
  rw [habs, hs, Int.log_natCast, if_pos hneg]
  have hj : (-((Nat.log 10 m : ℤ) + 1 - (k1 : ℤ))).toNat = 0 := by omega
  simp only [hj, strconv.fmtF_natCast]

/-- A whole number below `10^15` in magnitude is formatted as its decimal
representation: a minus sign when negative, then the digits, with no
exponent, no point and no padding. -/
theorem strconv.FormatFloat_intCast (n : ℤ) (h : |n| < 10 ^ 15) :
    strconv.FormatFloat (n : ℚ) = lit (toString n) := by
  have hb := abs_lt.mp h
  cases n with
  | ofNat m =>
    rcases Nat.eq_zero_or_pos m with h0 | hpos
    · subst h0
      simp [strconv.FormatFloat]
      rfl
    · have hm : m < 10 ^ 15 := by
        have := hb.2
        simp only [Int.ofNat_eq_coe] at this
        exact_mod_cast this
      have := strconv.FormatFloat_natCast m hpos hm
      simpa using this
  | negSucc m =>
    have hm : m + 1 < 10 ^ 15 := by
      have := hb.1
      rw [Int.negSucc_eq] at this
      omega
    have := strconv.FormatFloat_neg_natCast (m + 1) (Nat.succ_pos m) hm
    rw [Int.negSucc_eq]
    push_cast at this ⊢
    rw [this]
    rfl

/-- The timestamp of a time in the multi-century range, formatted: the
decimal representation of its millisecond count. -/
theorem FormatFloat_Time2Timestamp (f : jsonStore_TimeSeries_0_2_0) (t : time.Time)
    (hs : |t.sec| ≤ 10 ^ 10) (hn : t.nsec < 1000000000) :
    f.Time2Timestamp t = ((millis t : ℤ) : ℚ) ∧
    strconv.FormatFloat (f.Time2Timestamp t) = lit (toString (millis t)) := by
  have hb := abs_le.mp hs
  have a1 : t.nsec / 1000000 < 1000 := by omega
  have a2 : (0 : ℤ) ≤ ((t.nsec / 1000000 : ℕ) : ℤ) := Int.natCast_nonneg _
  have a3 : ((t.nsec / 1000000 : ℕ) : ℤ) < 1000 := by exact_mod_cast a1
  have hlo := hb.1
  have hhi := hb.2
  norm_num at hlo hhi
  have hm15 : |millis t| < 10 ^ 15 := by
    unfold millis
    rw [abs_lt]
    norm_num
    constructor <;> omega
  have hm53 : |millis t| < 2 ^ 53 := lt_trans hm15 (by norm_num)
  have hw : wrap64 (millis t) = millis t := by
    have hb2 := abs_lt.mp hm53
    apply wrap64_of_range
    · have := hb2.1
      norm_num at this ⊢
      omega
    · have := hb2.2
      norm_num at this ⊢
      omega
  have hT : f.Time2Timestamp t = ((millis t : ℤ) : ℚ) := by
    rw [Time2Timestamp_eq, hw]
    exact F64.round_intCast _ hm53
  exact ⟨hT, by rw [hT]; exact strconv.FormatFloat_intCast _ hm15⟩

/-! ## Claims about `WriteRawValueAt` and `ReadRange` -/

/-- C8: for every data string `d` and every time `t` whose Unix seconds are
at most `10^10` in magnitude, `WriteRawValueAt(d, t)` makes one POST to
`href/ts` whose body is `{"data": ` then `d` unchanged then `,"timestamp":`
then the decimal representation of the millisecond count of `t` (which is
the value of `Time2Timestamp(t)`) then `}`. -/
theorem C8_WriteRawValueAt_body (f : jsonStore_TimeSeries_0_2_0) (d : GoString)
    (t : time.Time) (w : Store) (hs : |t.sec| ≤ 10 ^ 10) (hn : t.nsec < 1000000000) :
    (f.WriteRawValueAt d t w).2.log =
      w.log ++ [.post (f.href ++ lit "/ts")
        (lit "\x7b\"data\": " ++ d ++ lit ",\"timestamp\":" ++
          lit (toString (t.sec * 1000 + ((t.nsec / 1000000 : ℕ) : ℤ))) ++ lit "\x7d")] ∧
    f.Time2Timestamp t = ((t.sec * 1000 + ((t.nsec / 1000000 : ℕ) : ℤ) : ℤ) : ℚ) := by
  obtain ⟨hT, hF⟩ := FormatFloat_Time2Timestamp f t hs hn
  refine ⟨?_, hT⟩
  simp only [jsonStore_TimeSeries_0_2_0.WriteRawValueAt, makeStoreRequestPOST, Store.perform, hF]
  split <;> rfl

theorem C8_WriteRawValueAt_body_witness :
    |(⟨1, 5000000⟩ : time.Time).sec| ≤ 10 ^ 10 ∧
    (⟨1, 5000000⟩ : time.Time).nsec < 1000000000 ∧
    (exampleFacade.WriteRawValueAt (lit "5") ⟨1, 5000000⟩ (Store.answering [])).2.log =
      [.post (lit "http://store/ds/ts") (lit "\x7b\"data\": 5,\"timestamp\":1005\x7d")] :=
  ⟨by decide, by decide,
    (C8_WriteRawValueAt_body exampleFacade (lit "5") ⟨1, 5000000⟩ (Store.answering [])
      (by decide) (by decide)).1.trans (by decide)⟩

/-- C10: for every two times `t1`, `t2` whose Unix seconds are at most
`10^10` in magnitude, in whatever order, `ReadRange(t1, t2)` makes one GET
request to `href/ts/range` whose parameters are `{"startTimestamp": ` then
the decimal millisecond count of `t1` then `,"endTimestamp": ` then the
decimal millisecond count of `t2` then `}`, these counts being the values of
`Time2Timestamp`; and when the transport answers `(r, nil)` it returns `r`
unchanged and no error. -/
theorem C10_ReadRange_params (f : jsonStore_TimeSeries_0_2_0) (t1 t2 : time.Time) (w : Store)
    (hs1 : |t1.sec| ≤ 10 ^ 10) (hn1 : t1.nsec < 1000000000)
    (hs2 : |t2.sec| ≤ 10 ^ 10) (hn2 : t2.nsec < 1000000000) :
    (f.ReadRange t1 t2 w).2.log =
      w.log ++ [.json (f.href ++ lit "/ts/range") (lit "GET")
        (lit "\x7b\"startTimestamp\": " ++
          lit (toString (t1.sec * 1000 + ((t1.nsec / 1000000 : ℕ) : ℤ))) ++
          lit ",\"endTimestamp\": " ++
          lit (toString (t2.sec * 1000 + ((t2.nsec / 1000000 : ℕ) : ℤ))) ++ lit "\x7d")] ∧
    f.Time2Timestamp t1 = ((t1.sec * 1000 + ((t1.nsec / 1000000 : ℕ) : ℤ) : ℤ) : ℚ) ∧
    f.Time2Timestamp t2 = ((t2.sec * 1000 + ((t2.nsec / 1000000 : ℕ) : ℤ) : ℤ) : ℚ) ∧
    (∀ r : GoString,
      w.reply w.log (.json (f.href ++ lit "/ts/range") (lit "GET")
        (lit "\x7b\"startTimestamp\": " ++
          lit (toString (t1.sec * 1000 + ((t1.nsec / 1000000 : ℕ) : ℤ))) ++
          lit ",\"endTimestamp\": " ++
          lit (toString (t2.sec * 1000 + ((t2.nsec / 1000000 : ℕ) : ℤ))) ++ lit "\x7d")) =
        (r, none) →
      (f.ReadRange t1 t2 w).1 = .returns (r, none)) := by
  obtain ⟨hT1, hF1⟩ := FormatFloat_Time2Timestamp f t1 hs1 hn1
  obtain ⟨hT2, hF2⟩ := FormatFloat_Time2Timestamp f t2 hs2 hn2
  refine ⟨?_, hT1, hT2, ?_⟩
  · simp only [jsonStore_TimeSeries_0_2_0.ReadRange, makeStoreRequestJson, Store.perform,
      hF1, hF2]
    split <;> rfl
  · intro r hr
    simp only [jsonStore_TimeSeries_0_2_0.ReadRange, makeStoreRequestJson, Store.perform,
      hF1, hF2]
    unfold millis
    rw [hr]

theorem C10_ReadRange_params_witness :
    |(⟨2, 0⟩ : time.Time).sec| ≤ 10 ^ 10 ∧ |(⟨1, 5000000⟩ : time.Time).sec| ≤ 10 ^ 10 ∧
    (exampleFacade.ReadRange ⟨2, 0⟩ ⟨1, 5000000⟩ (Store.answering (lit "[]"))).2.log =
      [.json (lit "http://store/ds/ts/range") (lit "GET")
        (lit "\x7b\"startTimestamp\": 2000,\"endTimestamp\": 1005\x7d")] :=
  ⟨by decide, by decide,
    (C10_ReadRange_params exampleFacade ⟨2, 0⟩ ⟨1, 5000000⟩ (Store.answering (lit "[]"))
      (by decide) (by decide) (by decide) (by decide)).1.trans (by decide)⟩

/-! ## Claims about `ReadSince` and the factories -/

/-- C11: for every time `t` whose Unix seconds are at most `10^10` in
magnitude, `ReadSince(t)` makes one GET request to `href/ts/since` whose
parameters are `{"startTimestamp": ` then the decimal millisecond count of
`t` (the value of `Time2Timestamp(t)`) then `}`, with no other field; and
when the transport answers `(r, nil)` it returns `r` unchanged and no error. -/
theorem C11_ReadSince_params (f : jsonStore_TimeSeries_0_2_0) (t : time.Time) (w : Store)
    (hs : |t.sec| ≤ 10 ^ 10) (hn : t.nsec < 1000000000) :
    (f.ReadSince t w).2.log =
      w.log ++ [.json (f.href ++ lit "/ts/since") (lit "GET")
        (lit "\x7b\"startTimestamp\": " ++
          lit (toString (t.sec * 1000 + ((t.nsec / 1000000 : ℕ) : ℤ))) ++ lit "\x7d")] ∧
    f.Time2Timestamp t = ((t.sec * 1000 + ((t.nsec / 1000000 : ℕ) : ℤ) : ℤ) : ℚ) ∧
    (∀ r : GoString,
      w.reply w.log (.json (f.href ++ lit "/ts/since") (lit "GET")
        (lit "\x7b\"startTimestamp\": " ++
          lit (toString (t.sec * 1000 + ((t.nsec / 1000000 : ℕ) : ℤ))) ++ lit "\x7d")) =
        (r, none) →
      (f.ReadSince t w).1 = .returns (r, none)) := by
  obtain ⟨hT, hF⟩ := FormatFloat_Time2Timestamp f t hs hn
  refine ⟨?_, hT, ?_⟩
  · simp only [jsonStore_TimeSeries_0_2_0.ReadSince, makeStoreRequestJson, Store.perform, hF]
    split <;> rfl
  · intro r hr
    simp only [jsonStore_TimeSeries_0_2_0.ReadSince, makeStoreRequestJson, Store.perform, hF]
    unfold millis
    rw [hr]

theorem C11_ReadSince_params_witness :
    |(⟨-1, 999999999⟩ : time.Time).sec| ≤ 10 ^ 10 ∧
    (⟨-1, 999999999⟩ : time.Time).nsec < 1000000000 ∧
    (exampleFacade.ReadSince ⟨-1, 999999999⟩ (Store.answering (lit "[1,[2]]"))).2.log =
      [.json (lit "http://store/ds/ts/since") (lit "GET")
        (lit "\x7b\"startTimestamp\": -1\x7d")] ∧
    (exampleFacade.ReadSince ⟨-1, 999999999⟩ (Store.answering (lit "[1,[2]]"))).1 =
      .returns (lit "[1,[2]]", none) :=
  ⟨by decide, by decide,
    (C11_ReadSince_params exampleFacade ⟨-1, 999999999⟩ (Store.answering (lit "[1,[2]]"))
      (by decide) (by decide)).1.trans (by decide),
    (C11_ReadSince_params exampleFacade ⟨-1, 999999999⟩ (Store.answering (lit "[1,[2]]"))
      (by decide) (by decide)).2.2 (lit "[1,[2]]") rfl⟩

/-- C12: for both factories taking a store endpoint, a data source id and a
store type: a facade is returned exactly when the store type is
`store-json`, and then its endpoint is the store endpoint, `/`, the data
source id, with no error; for every other store type, the empty one
included, no facade is returned and the text of the error returned ends
with, hence contains, the store type. -/
theorem C12_MakeStore_factories (storeHref datasourceId storeType : GoString) :
    STORE_JSON = lit "store-json" ∧
    (((MakeStoreTimeSeries_0_2_0 storeHref datasourceId storeType).1.isSome ↔
        storeType = lit "store-json") ∧
      (storeType = lit "store-json" →
        MakeStoreTimeSeries_0_2_0 storeHref datasourceId storeType =
          (some ⟨storeHref ++ lit "/" ++ datasourceId⟩, none)) ∧
      (storeType ≠ lit "store-json" →
        MakeStoreTimeSeries_0_2_0 storeHref datasourceId storeType =
          (none, some (errors.New
            (lit "(MakeStoreTimeSeries_0_2_0) Unsupported store type: " ++ storeType))) ∧
        ∀ e, (MakeStoreTimeSeries_0_2_0 storeHref datasourceId storeType).2 = some e →
          storeType <:+: e.Error)) ∧
    (((MakeStoreKeyValue_0_2_0 storeHref datasourceId storeType).1.isSome ↔
        storeType = lit "store-json") ∧
      (storeType = lit "store-json" →
        MakeStoreKeyValue_0_2_0 storeHref datasourceId storeType =
          (some ⟨storeHref ++ lit "/" ++ datasourceId⟩, none)) ∧
      (storeType ≠ lit "store-json" →
        MakeStoreKeyValue_0_2_0 storeHref datasourceId storeType =
          (none, some (errors.New
            (lit "(MakeStoreKeyValue_0_2_0) Unsupported store type: " ++ storeType))) ∧
        ∀ e, (MakeStoreKeyValue_0_2_0 storeHref datasourceId storeType).2 = some e →
          storeType <:+: e.Error)) := by
  refine ⟨rfl, ?_, ?_⟩
  · by_cases h : storeType = lit "store-json"
    · have hj : storeType = STORE_JSON := h
      refine ⟨?_, ?_, fun hn => absurd h hn⟩
      · simp [MakeStoreTimeSeries_0_2_0, hj, h.symm ▸ hj]
      · intro _
        simp [MakeStoreTimeSeries_0_2_0, hj]
    · have hj : ¬ storeType = STORE_JSON := h
      have hv : MakeStoreTimeSeries_0_2_0 storeHref datasourceId storeType =
          (none, some (errors.New
            (lit "(MakeStoreTimeSeries_0_2_0) Unsupported store type: " ++ storeType))) := by
        simp [MakeStoreTimeSeries_0_2_0, hj]
      refine ⟨?_, fun hp => absurd hp h, fun _ => ⟨hv, ?_⟩⟩
      · rw [hv]
        simp [h]
      · intro e he
        rw [hv] at he
        simp only [Option.some.injEq] at he
        subst he
        exact ⟨lit "(MakeStoreTimeSeries_0_2_0) Unsupported store type: ", [],
          by simp [errors.New]⟩
  · by_cases h : storeType = lit "store-json"
    · have hj : storeType = STORE_JSON := h
      refine ⟨?_, ?_, fun hn => absurd h hn⟩
      · simp [MakeStoreKeyValue_0_2_0, hj, h.symm ▸ hj]
      · intro _
        simp [MakeStoreKeyValue_0_2_0, hj]
    · have hj : ¬ storeType = STORE_JSON := h
      have hv : MakeStoreKeyValue_0_2_0 storeHref datasourceId storeType =
          (none, some (errors.New
            (lit "(MakeStoreKeyValue_0_2_0) Unsupported store type: " ++ storeType))) := by
        simp [MakeStoreKeyValue_0_2_0, hj]
      refine ⟨?_, fun hp => absurd hp h, fun _ => ⟨hv, ?_⟩⟩
      · rw [hv]
        simp [h]
      · intro e he
        rw [hv] at he
        simp only [Option.some.injEq] at he
        subst he
        exact ⟨lit "(MakeStoreKeyValue_0_2_0) Unsupported store type: ", [],
          by simp [errors.New]⟩

theorem C12_MakeStore_factories_witness :
    lit "store-unknown" ≠ lit "store-json" ∧
    MakeStoreTimeSeries_0_2_0 (lit "http://store") (lit "ds") (lit "store-unknown") =
      (none, some (errors.New
        (lit "(MakeStoreTimeSeries_0_2_0) Unsupported store type: store-unknown"))) ∧
    MakeStoreKeyValue_0_2_0 (lit "http://store") (lit "ds") (lit "store-unknown") =
      (none, some (errors.New
        (lit "(MakeStoreKeyValue_0_2_0) Unsupported store type: store-unknown"))) ∧
    MakeStoreKeyValue_0_2_0 (lit "http://store") (lit "ds") (lit "store-json") =
      (some ⟨lit "http://store/ds"⟩, none) :=
  ⟨by decide,
    ((C12_MakeStore_factories (lit "http://store") (lit "ds")
      (lit "store-unknown")).2.1.2.2 (by decide)).1.trans (by decide),
    ((C12_MakeStore_factories (lit "http://store") (lit "ds")
      (lit "store-unknown")).2.2.2.2 (by decide)).1.trans (by decide),
    ((C12_MakeStore_factories (lit "http://store") (lit "ds")
      (lit "store-json")).2.2.2.1 (by decide)).trans (by decide)⟩

/-- An "Unspecified store type" text is never an "Unsupported store type"
text, whatever follows the two. -/
theorem unspecified_ne_unsupported (p x y : GoString) :
    p ++ lit "Unspecified store type for " ++ x ≠ p ++ lit "Unsupported store type: " ++ y := by
  have h1 : lit "Unspecified store type for " =
      lit "Uns" ++ ('p'.toUInt8 :: lit "ecified store type for ") := by decide
  have h2 : lit "Unsupported store type: " =
      lit "Uns" ++ ('u'.toUInt8 :: lit "pported store type: ") := by decide
  rw [h1, h2]
  intro h
  simp only [List.append_assoc, List.append_cancel_left_eq, List.cons_append] at h
  have := (List.cons.inj h).1
  exact absurd this (by decide)

theorem timeSeries_unspecified_split :
    lit "(MakeStoreTimeSeries_0_2_0) Unspecified store type for " =
      lit "(MakeStoreTimeSeries_0_2_0) " ++ lit "Unspecified store type for " := by decide

theorem timeSeries_unsupported_split :
    lit "(MakeStoreTimeSeries_0_2_0) Unsupported store type: " =
      lit "(MakeStoreTimeSeries_0_2_0) " ++ lit "Unsupported store type: " := by decide

theorem keyValue_unspecified_split :
    lit "(MakeStoreKeyValue_0_2_0) Unspecified store type for " =
      lit "(MakeStoreKeyValue_0_2_0) " ++ lit "Unspecified store type for " := by decide

theorem keyValue_unsupported_split :
    lit "(MakeStoreKeyValue_0_2_0) Unsupported store type: " =
      lit "(MakeStoreKeyValue_0_2_0) " ++ lit "Unsupported store type: " := by decide

/-- What `MakeSourceTimeSeries_0_2_0` returns once the metadata has decoded
without error, by store type. -/
theorem MakeSourceTimeSeries_decoded (c : Catalogue) (dsMetadata : GoString)
    (meta : c.hypercat) (h : c.Unmarshal dsMetadata = (meta, none)) :
    MakeSourceTimeSeries_0_2_0 c dsMetadata =
      if c.getDsStoreType meta = lit "store-json" then (some ⟨c.Href meta⟩, none)
      else if c.getDsStoreType meta = lit "" then
        (none, some (errors.New
          (lit "(MakeStoreTimeSeries_0_2_0) Unspecified store type for " ++ c.Href meta)))
      else
        (none, some (errors.New
          (lit "(MakeStoreTimeSeries_0_2_0) Unsupported store type: " ++
            c.getDsStoreType meta))) := by
  simp only [MakeSourceTimeSeries_0_2_0, h]
  rfl

/-- What `MakeSourcKeyValue_0_2_0` returns once the metadata has decoded
without error, by store type. -/
theorem MakeSourcKeyValue_decoded (c : Catalogue) (dsMetadata : GoString)
    (meta : c.hypercat) (h : c.Unmarshal dsMetadata = (meta, none)) :
    MakeSourcKeyValue_0_2_0 c dsMetadata =
      if c.getDsStoreType meta = lit "store-json" then (some ⟨c.Href meta⟩, none)
      else if c.getDsStoreType meta = lit "" then
        (none, some (errors.New
          (lit "(MakeStoreKeyValue_0_2_0) Unspecified store type for " ++ c.Href meta)))
      else
        (none, some (errors.New
          (lit "(MakeStoreKeyValue_0_2_0) Unsupported store type: " ++
            c.getDsStoreType meta))) := by
  simp only [MakeSourcKeyValue_0_2_0, h]
  rfl

/-- C13 as stated fails: with metadata that decodes to the endpoint
`http://store/ds` and the store type `store-unknown`, both factories return
no facade and an error whose text is the factory's "Unsupported store type: "
prefix followed by `store-unknown`; the endpoint does not occur in it. -/
theorem C13_unsupported_counterexample :
    lit "store-unknown" ≠ lit "" ∧ lit "store-unknown" ≠ lit "store-json" ∧
    MakeSourceTimeSeries_0_2_0 (Catalogue.fixed (lit "http://store/ds") (lit "store-unknown"))
        (lit "metadata") =
      (none, some (errors.New
        (lit "(MakeStoreTimeSeries_0_2_0) Unsupported store type: store-unknown"))) ∧
    ¬ (lit "http://store/ds" <:+:
      lit "(MakeStoreTimeSeries_0_2_0) Unsupported store type: store-unknown") ∧
    MakeSourcKeyValue_0_2_0 (Catalogue.fixed (lit "http://store/ds") (lit "store-unknown"))
        (lit "metadata") =
      (none, some (errors.New
        (lit "(MakeStoreKeyValue_0_2_0) Unsupported store type: store-unknown"))) ∧
    ¬ (lit "http://store/ds" <:+:
      lit "(MakeStoreKeyValue_0_2_0) Unsupported store type: store-unknown") := by
  refine ⟨by decide, by decide, ?_, by decide, ?_, by decide⟩
  · rw [MakeSourceTimeSeries_decoded _ _ (lit "http://store/ds", lit "store-unknown") rfl]
    decide
  · rw [MakeSourcKeyValue_decoded _ _ (lit "http://store/ds", lit "store-unknown") rfl]
    decide

/-- C13 as amended: for both metadata factories, when the metadata decodes
without error to a store type that is neither empty nor `store-json`, no
facade is returned and the error returned has as text the factory's
"Unsupported store type: " prefix followed by the store type, so it names
the store type; the endpoint does not enter the text. -/
theorem C13_MakeSource_unsupported (c : Catalogue) (dsMetadata : GoString)
    (meta : c.hypercat) (h : c.Unmarshal dsMetadata = (meta, none))
    (hne : c.getDsStoreType meta ≠ lit "") (hnj : c.getDsStoreType meta ≠ lit "store-json") :
    (MakeSourceTimeSeries_0_2_0 c dsMetadata =
        (none, some (errors.New
          (lit "(MakeStoreTimeSeries_0_2_0) Unsupported store type: " ++
            c.getDsStoreType meta))) ∧
      c.getDsStoreType meta <:+:
        (errors.New (lit "(MakeStoreTimeSeries_0_2_0) Unsupported store type: " ++
          c.getDsStoreType meta)).Error) ∧
    (MakeSourcKeyValue_0_2_0 c dsMetadata =
        (none, some (errors.New
          (lit "(MakeStoreKeyValue_0_2_0) Unsupported store type: " ++
            c.getDsStoreType meta))) ∧
      c.getDsStoreType meta <:+:
        (errors.New (lit "(MakeStoreKeyValue_0_2_0) Unsupported store type: " ++
          c.getDsStoreType meta)).Error) := by
  refine ⟨⟨?_, ⟨lit "(MakeStoreTimeSeries_0_2_0) Unsupported store type: ", [],
      by simp [errors.New]⟩⟩,
    ⟨?_, ⟨lit "(MakeStoreKeyValue_0_2_0) Unsupported store type: ", [],
      by simp [errors.New]⟩⟩⟩
  · rw [MakeSourceTimeSeries_decoded c dsMetadata meta h, if_neg hnj, if_neg hne]
  · rw [MakeSourcKeyValue_decoded c dsMetadata meta h, if_neg hnj, if_neg hne]

theorem C13_MakeSource_unsupported_witness :
    lit "store-unknown" ≠ lit "" ∧ lit "store-unknown" ≠ lit "store-json" ∧
    MakeSourceTimeSeries_0_2_0 (Catalogue.fixed (lit "http://store/ds") (lit "store-unknown"))
        (lit "metadata") =
      (none, some (errors.New
        (lit "(MakeStoreTimeSeries_0_2_0) Unsupported store type: " ++
          lit "store-unknown"))) :=
  ⟨by decide, by decide,
    (C13_MakeSource_unsupported
      (Catalogue.fixed (lit "http://store/ds") (lit "store-unknown")) (lit "metadata")
      (lit "http://store/ds", lit "store-unknown") rfl (by decide) (by decide)).1.1⟩

/-- C14: for both metadata factories, when the metadata decodes without
error to the endpoint `e`: with an empty store type no facade is returned
and the error returned has as text the factory's "Unspecified store type
for " prefix followed by `e`, hence contains `e`, and differs from the error
the factory returns for any metadata whose store type is neither empty nor
`store-json`; with the store type `store-json` the facade returned has
exactly the endpoint `e`, and no error is returned. -/
theorem C14_MakeSource_unspecified_and_json (c : Catalogue) (dsMetadata : GoString)
    (meta : c.hypercat) (h : c.Unmarshal dsMetadata = (meta, none)) :
    (c.getDsStoreType meta = lit "" →
      (MakeSourceTimeSeries_0_2_0 c dsMetadata =
          (none, some (errors.New
            (lit "(MakeStoreTimeSeries_0_2_0) Unspecified store type for " ++ c.Href meta))) ∧
        c.Href meta <:+: (errors.New
          (lit "(MakeStoreTimeSeries_0_2_0) Unspecified store type for " ++ c.Href meta)).Error ∧
        ∀ (c2 : Catalogue) (d2 : GoString) (m2 : c2.hypercat),
          c2.Unmarshal d2 = (m2, none) → c2.getDsStoreType m2 ≠ lit "" →
          c2.getDsStoreType m2 ≠ lit "store-json" →
          (MakeSourceTimeSeries_0_2_0 c dsMetadata).2 ≠
            (MakeSourceTimeSeries_0_2_0 c2 d2).2) ∧
      (MakeSourcKeyValue_0_2_0 c dsMetadata =
          (none, some (errors.New
            (lit "(MakeStoreKeyValue_0_2_0) Unspecified store type for " ++ c.Href meta))) ∧
        c.Href meta <:+: (errors.New
          (lit "(MakeStoreKeyValue_0_2_0) Unspecified store type for " ++ c.Href meta)).Error ∧
        ∀ (c2 : Catalogue) (d2 : GoString) (m2 : c2.hypercat),
          c2.Unmarshal d2 = (m2, none) → c2.getDsStoreType m2 ≠ lit "" →
          c2.getDsStoreType m2 ≠ lit "store-json" →
          (MakeSourcKeyValue_0_2_0 c dsMetadata).2 ≠ (MakeSourcKeyValue_0_2_0 c2 d2).2)) ∧
    (c.getDsStoreType meta = lit "store-json" →
      MakeSourceTimeSeries_0_2_0 c dsMetadata = (some ⟨c.Href meta⟩, none) ∧
      MakeSourcKeyValue_0_2_0 c dsMetadata = (some ⟨c.Href meta⟩, none)) := by
  have hej : lit "" ≠ lit "store-json" := by decide
  constructor
  · intro he
    have hts : MakeSourceTimeSeries_0_2_0 c dsMetadata =
        (none, some (errors.New
          (lit "(MakeStoreTimeSeries_0_2_0) Unspecified store type for " ++ c.Href meta))) := by
      rw [MakeSourceTimeSeries_decoded c dsMetadata meta h, he, if_neg hej, if_pos rfl]
    have hkv : MakeSourcKeyValue_0_2_0 c dsMetadata =
        (none, some (errors.New
          (lit "(MakeStoreKeyValue_0_2_0) Unspecified store type for " ++ c.Href meta))) := by
      rw [MakeSourcKeyValue_decoded c dsMetadata meta h, he, if_neg hej, if_pos rfl]
    refine ⟨⟨hts, ⟨lit "(MakeStoreTimeSeries_0_2_0) Unspecified store type for ", [],
        by simp [errors.New]⟩, ?_⟩,
      ⟨hkv, ⟨lit "(MakeStoreKeyValue_0_2_0) Unspecified store type for ", [],
        by simp [errors.New]⟩, ?_⟩⟩
    · intro c2 d2 m2 h2 hne hnj hc
      rw [hts, MakeSourceTimeSeries_decoded c2 d2 m2 h2, if_neg hnj, if_neg hne] at hc
      simp only [Option.some.injEq, errors.New, GoError.mk.injEq] at hc
      rw [timeSeries_unspecified_split, timeSeries_unsupported_split] at hc
      exact unspecified_ne_unsupported _ _ _ hc
    · intro c2 d2 m2 h2 hne hnj hc
      rw [hkv, MakeSourcKeyValue_decoded c2 d2 m2 h2, if_neg hnj, if_neg hne] at hc
      simp only [Option.some.injEq, errors.New, GoError.mk.injEq] at hc
      rw [keyValue_unspecified_split, keyValue_unsupported_split] at hc
      exact unspecified_ne_unsupported _ _ _ hc
  · intro hj
    constructor
    · rw [MakeSourceTimeSeries_decoded c dsMetadata meta h, if_pos hj]
    · rw [MakeSourcKeyValue_decoded c dsMetadata meta h, if_pos hj]

theorem C14_MakeSource_unspecified_and_json_witness :
    MakeSourceTimeSeries_0_2_0 (Catalogue.fixed (lit "http://store/ds") (lit ""))
        (lit "metadata") =
      (none, some (errors.New
        (lit "(MakeStoreTimeSeries_0_2_0) Unspecified store type for http://store/ds"))) ∧
    MakeSourcKeyValue_0_2_0 (Catalogue.fixed (lit "http://store/ds") (lit "store-json"))
        (lit "metadata") = (some ⟨lit "http://store/ds"⟩, none) :=
  ⟨((C14_MakeSource_unspecified_and_json
      (Catalogue.fixed (lit "http://store/ds") (lit "")) (lit "metadata")
      (lit "http://store/ds", lit "") rfl).1 rfl).1.1.trans (by decide),
    ((C14_MakeSource_unspecified_and_json
      (Catalogue.fixed (lit "http://store/ds") (lit "store-json")) (lit "metadata")
      (lit "http://store/ds", lit "store-json") rfl).2 rfl).2⟩

/-! ## The requests each operation makes -/

theorem ReadLatest_log (f : jsonStore_TimeSeries_0_2_0) (w : Store) :
    (f.ReadLatest w).2.log = w.log ++ [.plain (f.href ++ lit "/ts/latest") (lit "GET")] := by
  simp only [jsonStore_TimeSeries_0_2_0.ReadLatest, makeStoreRequest, Store.perform]
  repeat' split
  all_goals rfl

theorem ReadSince_log (f : jsonStore_TimeSeries_0_2_0) (t : time.Time) (w : Store) :
    (f.ReadSince t w).2.log = w.log ++ [.json (f.href ++ lit "/ts/since") (lit "GET")
      (lit "\x7b\"startTimestamp\": " ++ strconv.FormatFloat (f.Time2Timestamp t) ++
        lit "\x7d")] := by
  simp only [jsonStore_TimeSeries_0_2_0.ReadSince, makeStoreRequestJson, Store.perform]
  split <;> rfl

theorem ReadRange_log (f : jsonStore_TimeSeries_0_2_0) (t1 t2 : time.Time) (w : Store) :
    (f.ReadRange t1 t2 w).2.log = w.log ++ [.json (f.href ++ lit "/ts/range") (lit "GET")
      (lit "\x7b\"startTimestamp\": " ++ strconv.FormatFloat (f.Time2Timestamp t1) ++
        lit ",\"endTimestamp\": " ++ strconv.FormatFloat (f.Time2Timestamp t2) ++
        lit "\x7d")] := by
  simp only [jsonStore_TimeSeries_0_2_0.ReadRange, makeStoreRequestJson, Store.perform]
  split <;> rfl

theorem WriteRawValue_log (f : jsonStore_TimeSeries_0_2_0) (d : GoString) (w : Store) :
    (f.WriteRawValue d w).2.log =
      w.log ++ [.post (f.href ++ lit "/ts") (lit "\x7b\"data\": " ++ d ++ lit "\x7d")] := by
  simp only [jsonStore_TimeSeries_0_2_0.WriteRawValue, makeStoreRequestPOST, Store.perform]
  split <;> rfl

theorem WriteRawValueAt_log (f : jsonStore_TimeSeries_0_2_0) (d : GoString) (t : time.Time)
    (w : Store) :
    (f.WriteRawValueAt d t w).2.log =
      w.log ++ [.post (f.href ++ lit "/ts") (lit "\x7b\"data\": " ++ d ++
        lit ",\"timestamp\":" ++ strconv.FormatFloat (f.Time2Timestamp t) ++ lit "\x7d")] := by
  simp only [jsonStore_TimeSeries_0_2_0.WriteRawValueAt, makeStoreRequestPOST, Store.perform]
  split <;> rfl

theorem KeyValue_Read_log (k : jsonStore_KeyValue_0_2_0) (w : Store) :
    (k.Read w).2.log = w.log ++ [.plain (k.href ++ lit "/kv") (lit "GET")] := by
  simp only [jsonStore_KeyValue_0_2_0.Read, makeStoreRequest, Store.perform]
  split <;> rfl

theorem KeyValue_Write_log (k : jsonStore_KeyValue_0_2_0) (d : GoString) (w : Store) :
    (k.Write d w).2.log = w.log ++ [.post (k.href ++ lit "/kv") d] := by
  simp only [jsonStore_KeyValue_0_2_0.Write, makeStoreRequestPOST, Store.perform]
  split <;> rfl

/-! ## Claims about the transport calls -/

/-- C15: each of the seven operations makes exactly one transport call, and
when the transport's answer to that call carries an error `e`, the operation
returns that same `e`; the read operations return the empty string with it.
No further call is made: the log grows by that one request. -/
theorem C15_transport_error_propagates (f : jsonStore_TimeSeries_0_2_0)
    (k : jsonStore_KeyValue_0_2_0) (w : Store) (d : GoString) (t t1 t2 : time.Time) :
    (∃ req, (f.ReadLatest w).2.log = w.log ++ [req] ∧
      ∀ e, (w.reply w.log req).2 = some e → (f.ReadLatest w).1 = .returns ([], some e)) ∧
    (∃ req, (f.ReadSince t w).2.log = w.log ++ [req] ∧
      ∀ e, (w.reply w.log req).2 = some e → (f.ReadSince t w).1 = .returns ([], some e)) ∧
    (∃ req, (f.ReadRange t1 t2 w).2.log = w.log ++ [req] ∧
      ∀ e, (w.reply w.log req).2 = some e →
        (f.ReadRange t1 t2 w).1 = .returns ([], some e)) ∧
    (∃ req, (f.WriteRawValue d w).2.log = w.log ++ [req] ∧
      ∀ e, (w.reply w.log req).2 = some e → (f.WriteRawValue d w).1 = .returns (some e)) ∧
    (∃ req, (f.WriteRawValueAt d t w).2.log = w.log ++ [req] ∧
      ∀ e, (w.reply w.log req).2 = some e →
        (f.WriteRawValueAt d t w).1 = .returns (some e)) ∧
    (∃ req, (k.Read w).2.log = w.log ++ [req] ∧
      ∀ e, (w.reply w.log req).2 = some e → (k.Read w).1 = .returns ([], some e)) ∧
    (∃ req, (k.Write d w).2.log = w.log ++ [req] ∧
      ∀ e, (w.reply w.log req).2 = some e → (k.Write d w).1 = .returns (some e)) := by
  refine ⟨⟨_, ReadLatest_log f w, ?_⟩, ⟨_, ReadSince_log f t w, ?_⟩,
    ⟨_, ReadRange_log f t1 t2 w, ?_⟩, ⟨_, WriteRawValue_log f d w, ?_⟩,
    ⟨_, WriteRawValueAt_log f d t w, ?_⟩, ⟨_, KeyValue_Read_log k w, ?_⟩,
    ⟨_, KeyValue_Write_log k d w, ?_⟩⟩
  · intro e he
    simp only [jsonStore_TimeSeries_0_2_0.ReadLatest, makeStoreRequest, Store.perform, he]
  · intro e he
    simp only [jsonStore_TimeSeries_0_2_0.ReadSince, makeStoreRequestJson, Store.perform, he]
  · intro e he
    simp only [jsonStore_TimeSeries_0_2_0.ReadRange, makeStoreRequestJson, Store.perform, he]
  · intro e he
    simp only [jsonStore_TimeSeries_0_2_0.WriteRawValue, makeStoreRequestPOST, Store.perform,
      he]
  · intro e he
    simp only [jsonStore_TimeSeries_0_2_0.WriteRawValueAt, makeStoreRequestPOST,
      Store.perform, he]
  · intro e he
    simp only [jsonStore_KeyValue_0_2_0.Read, makeStoreRequest, Store.perform, he]
  · intro e he
    simp only [jsonStore_KeyValue_0_2_0.Write, makeStoreRequestPOST, Store.perform, he]

theorem C15_transport_error_propagates_witness :
    (exampleFacade.ReadLatest (Store.failing (lit "[1]") ⟨lit "404 not found"⟩)).1 =
      .returns ([], some ⟨lit "404 not found"⟩) ∧
    (exampleKeyValue.Read (Store.failing (lit "[1]") ⟨lit "404 not found"⟩)).1 =
      .returns ([], some ⟨lit "404 not found"⟩) ∧
    (exampleKeyValue.Write (lit "5") (Store.failing (lit "[1]") ⟨lit "404 not found"⟩)).1 =
      .returns (some ⟨lit "404 not found"⟩) := by
  obtain ⟨⟨_, _, h1⟩, _, _, _, _, ⟨_, _, h6⟩, ⟨_, _, h7⟩⟩ :=
    C15_transport_error_propagates exampleFacade exampleKeyValue
      (Store.failing (lit "[1]") ⟨lit "404 not found"⟩) (lit "5") ⟨0, 0⟩ ⟨0, 0⟩ ⟨0, 0⟩
  exact ⟨h1 _ rfl, h6 _ rfl, h7 _ rfl⟩

/-- C17: the key-value `Write(d)` makes one POST to `href/kv` whose body is
`d` exactly, and `Read()` returns the transport's text unchanged, with no
error, whenever the transport answers its GET of `href/kv` without error. -/
theorem C17_KeyValue_passthrough (k : jsonStore_KeyValue_0_2_0) (d : GoString) (w : Store) :
    (k.Write d w).2.log = w.log ++ [.post (k.href ++ lit "/kv") d] ∧
    (k.Read w).2.log = w.log ++ [.plain (k.href ++ lit "/kv") (lit "GET")] ∧
    (∀ r : GoString,
      w.reply w.log (.plain (k.href ++ lit "/kv") (lit "GET")) = (r, none) →
      (k.Read w).1 = .returns (r, none)) := by
  refine ⟨KeyValue_Write_log k d w, KeyValue_Read_log k w, ?_⟩
  intro r hr
  simp only [jsonStore_KeyValue_0_2_0.Read, makeStoreRequest, Store.perform, hr]

theorem C17_KeyValue_passthrough_witness :
    (exampleKeyValue.Write (lit "\x7b\"a\": [1]\x7d") (Store.answering [])).2.log =
      [.post (lit "http://store/ds/kv") (lit "\x7b\"a\": [1]\x7d")] ∧
    (exampleKeyValue.Read (Store.answering (lit "[\x7b\"a\": [1]\x7d]"))).1 =
      .returns (lit "[\x7b\"a\": [1]\x7d]", none) :=
  ⟨(C17_KeyValue_passthrough exampleKeyValue (lit "\x7b\"a\": [1]\x7d")
      (Store.answering [])).1.trans (by decide),
    (C17_KeyValue_passthrough exampleKeyValue []
      (Store.answering (lit "[\x7b\"a\": [1]\x7d]"))).2.2 _ rfl⟩

/-- C18: on a facade with endpoint `e` every operation adds exactly one
request to the log, whatever its arguments and whatever the transport
answers: key-value `Read` a GET of `e/kv`, key-value `Write` a POST to
`e/kv`, `ReadLatest` a GET of `e/ts/latest`, `ReadSince` a GET of
`e/ts/since`, `ReadRange` a GET of `e/ts/range`, `WriteRawValue` and
`WriteRawValueAt` a POST to `e/ts`. -/
theorem C18_one_request_per_operation (f : jsonStore_TimeSeries_0_2_0)
    (k : jsonStore_KeyValue_0_2_0) (w : Store) (d : GoString) (t t1 t2 : time.Time) :
    (∃ req, (k.Read w).2.log = w.log ++ [req] ∧
      req.url = k.href ++ lit "/kv" ∧ req.method = lit "GET") ∧
    (∃ req, (k.Write d w).2.log = w.log ++ [req] ∧
      req.url = k.href ++ lit "/kv" ∧ req.method = lit "POST") ∧
    (∃ req, (f.ReadLatest w).2.log = w.log ++ [req] ∧
      req.url = f.href ++ lit "/ts/latest" ∧ req.method = lit "GET") ∧
    (∃ req, (f.ReadSince t w).2.log = w.log ++ [req] ∧
      req.url = f.href ++ lit "/ts/since" ∧ req.method = lit "GET") ∧
    (∃ req, (f.ReadRange t1 t2 w).2.log = w.log ++ [req] ∧
      req.url = f.href ++ lit "/ts/range" ∧ req.method = lit "GET") ∧
    (∃ req, (f.WriteRawValue d w).2.log = w.log ++ [req] ∧
      req.url = f.href ++ lit "/ts" ∧ req.method = lit "POST") ∧
    (∃ req, (f.WriteRawValueAt d t w).2.log = w.log ++ [req] ∧
      req.url = f.href ++ lit "/ts" ∧ req.method = lit "POST") :=
  ⟨⟨_, KeyValue_Read_log k w, rfl, rfl⟩, ⟨_, KeyValue_Write_log k d w, rfl, rfl⟩,
    ⟨_, ReadLatest_log f w, rfl, rfl⟩, ⟨_, ReadSince_log f t w, rfl, rfl⟩,
    ⟨_, ReadRange_log f t1 t2 w, rfl, rfl⟩, ⟨_, WriteRawValue_log f d w, rfl, rfl⟩,
    ⟨_, WriteRawValueAt_log f d t w, rfl, rfl⟩⟩

/-! ## Whole-number timestamps -/

/-- A whole number with a 53-bit significand, scaled by a power of two, is a
`float64` value. -/
theorem F64.round_mul_two_pow (m : ℤ) (j : ℕ) (h1 : 2 ^ 52 ≤ m) (h2 : m < 2 ^ 53) :
    F64.round ((m * 2 ^ j : ℤ) : ℚ) = ((m * 2 ^ j : ℤ) : ℚ) := by
  have hm1 : (2 : ℚ) ^ (52 : ℕ) ≤ (m : ℚ) := by exact_mod_cast h1
  have hm2 : (m : ℚ) < (2 : ℚ) ^ (53 : ℕ) := by exact_mod_cast h2
  have hj : (0 : ℚ) < (2 : ℚ) ^ j := by positivity
  have hq : ((m * 2 ^ j : ℤ) : ℚ) = (m : ℚ) * 2 ^ j := by push_cast; rfl
  have hone : (1 : ℚ) ≤ (m : ℚ) * 2 ^ j := by
    have a1 : (1 : ℚ) ≤ (m : ℚ) := le_trans (by norm_num) hm1
    have a2 : (1 : ℚ) ≤ (2 : ℚ) ^ j := one_le_pow₀ (by norm_num)
    calc (1 : ℚ) = 1 * 1 := by norm_num
      _ ≤ (m : ℚ) * 2 ^ j := mul_le_mul a1 a2 (by norm_num) (by linarith)
  have hpos : (0 : ℚ) < (m : ℚ) * 2 ^ j := by linarith
  have hlo : ((2 : ℕ) : ℚ) ^ ((52 + j : ℕ) : ℤ) ≤ (m : ℚ) * 2 ^ j := by
    rw [zpow_natCast, pow_add]
    push_cast
    exact mul_le_mul_of_nonneg_right hm1 hj.le
  have hhi : (m : ℚ) * 2 ^ j < ((2 : ℕ) : ℚ) ^ ((53 + j : ℕ) : ℤ) := by
    rw [zpow_natCast, pow_add]
    push_cast
    exact mul_lt_mul_of_pos_right hm2 hj
  have l1 := (Int.zpow_le_iff_le_log (by norm_num : 1 < 2) hpos).1 hlo
  have l2 := (Int.lt_zpow_iff_log_lt (by norm_num : 1 < 2) hpos).1 hhi
  have hlog : Int.log 2 ((m : ℚ) * 2 ^ j) - 52 = (j : ℤ) := by
    push_cast at l1 l2
    omega
  rw [hq, F64.round_of_one_le hone, hlog, zpow_natCast]
  have hs : (m : ℚ) * 2 ^ j / 2 ^ j = (m : ℚ) := by field_simp
  rw [hs, roundHalfEven_intCast]

/-- On a whole `float64` value within the `int64` range `Timestamp2Time`
gives the time that many seconds after the epoch, with no nanoseconds. -/
theorem Timestamp2Time_whole (f : jsonStore_TimeSeries_0_2_0) (n : ℤ)
    (hrep : F64.IsFloat64 (n : ℚ)) (h1 : -2 ^ 63 ≤ n) (h2 : n < 2 ^ 63) :
    f.Timestamp2Time (n : ℚ) = ⟨n, 0⟩ := by
  unfold F64.IsFloat64 at hrep
  unfold jsonStore_TimeSeries_0_2_0.Timestamp2Time
  simp only []
  rw [F64.toInt64_intCast h1 h2]
  unfold F64.ofInt64 F64.sub F64.mul
  rw [hrep, sub_self, F64.round_zero, zero_mul, F64.round_zero]
  have h0 : F64.toInt64 (0 : ℚ) = 0 := by
    have := @F64.toInt64_intCast 0 (by norm_num) (by norm_num)
    simpa using this
  rw [h0]
  simp [time.Unix]

/-- The millisecond count is the instant in nanoseconds divided by
1,000,000, rounded down. -/
theorem millis_eq_nanos_div (t : time.Time) : millis t = nanos t / 1000000 := by
  unfold millis nanos
  push_cast
  omega

/-! ## Claims about whole timestamps and millisecond granularity -/

/-- C16: for every whole number `n` that is a `float64` value and lies in
the `int64` range, `Timestamp2Time(n)` is the time whose Unix seconds are
`n` and whose nanoseconds are `0`. -/
theorem C16_Timestamp2Time_whole_number (f : jsonStore_TimeSeries_0_2_0) (n : ℤ)
    (hrep : F64.IsFloat64 (n : ℚ)) (h1 : -2 ^ 63 ≤ n) (h2 : n < 2 ^ 63) :
    f.Timestamp2Time (n : ℚ) = ⟨n, 0⟩ ∧
    (f.Timestamp2Time (n : ℚ)).Unix = n ∧ (f.Timestamp2Time (n : ℚ)).Nanosecond = 0 := by
  have h := Timestamp2Time_whole f n hrep h1 h2
  rw [h]
  exact ⟨rfl, rfl, rfl⟩

theorem C16_Timestamp2Time_whole_number_witness :
    F64.IsFloat64 (((2 ^ 53 - 1) * 2 ^ 10 : ℤ) : ℚ) ∧
    (-2 ^ 63 : ℤ) ≤ (2 ^ 53 - 1) * 2 ^ 10 ∧ ((2 ^ 53 - 1) * 2 ^ 10 : ℤ) < 2 ^ 63 ∧
    exampleFacade.Timestamp2Time (((2 ^ 53 - 1) * 2 ^ 10 : ℤ) : ℚ) =
      ⟨(2 ^ 53 - 1) * 2 ^ 10, 0⟩ :=
  ⟨F64.round_mul_two_pow (2 ^ 53 - 1) 10 (by decide) (by decide), by decide, by decide,
    (C16_Timestamp2Time_whole_number exampleFacade ((2 ^ 53 - 1) * 2 ^ 10)
      (F64.round_mul_two_pow (2 ^ 53 - 1) 10 (by decide) (by decide))
      (by decide) (by decide)).1⟩

/-- C19: for two times whose Unix seconds are at most `10^10` in magnitude,
`Time2Timestamp` gives the same value exactly when the two instants fall in
the same whole millisecond counted from the epoch (rounding down, so also
before the epoch), and when the second instant is at least one millisecond
after the first, its timestamp is at least one more. -/
theorem C19_Time2Timestamp_millisecond_granularity (f : jsonStore_TimeSeries_0_2_0)
    (t u : time.Time)
    (hts : |t.sec| ≤ 10 ^ 10) (htn : t.nsec < 1000000000)
    (hus : |u.sec| ≤ 10 ^ 10) (hun : u.nsec < 1000000000) :
    (f.Time2Timestamp t = f.Time2Timestamp u ↔ nanos t / 1000000 = nanos u / 1000000) ∧
    (nanos t + 1000000 ≤ nanos u → f.Time2Timestamp t + 1 ≤ f.Time2Timestamp u) := by
  have hT := (FormatFloat_Time2Timestamp f t hts htn).1
  have hU := (FormatFloat_Time2Timestamp f u hus hun).1
  rw [hT, hU, millis_eq_nanos_div, millis_eq_nanos_div]
  constructor
  · exact Int.cast_inj
  · intro h
    have : nanos t / 1000000 + 1 ≤ nanos u / 1000000 := by omega
    exact_mod_cast this

theorem C19_Time2Timestamp_millisecond_granularity_witness :
    |(⟨-1, 999000000⟩ : time.Time).sec| ≤ 10 ^ 10 ∧
    nanos ⟨-1, 999000000⟩ / 1000000 = nanos ⟨-1, 999999999⟩ / 1000000 ∧
    exampleFacade.Time2Timestamp ⟨-1, 999000000⟩ =
      exampleFacade.Time2Timestamp ⟨-1, 999999999⟩ ∧
    exampleFacade.Time2Timestamp ⟨-1, 999999999⟩ + 1 ≤
      exampleFacade.Time2Timestamp ⟨0, 999999⟩ :=
  ⟨by decide, by decide,
    (C19_Time2Timestamp_millisecond_granularity exampleFacade ⟨-1, 999000000⟩
      ⟨-1, 999999999⟩ (by decide) (by decide) (by decide) (by decide)).1.2 (by decide),
    (C19_Time2Timestamp_millisecond_granularity exampleFacade ⟨-1, 999999999⟩
      ⟨0, 999999⟩ (by decide) (by decide) (by decide) (by decide)).2 (by decide)⟩
